import Mathlib

/-
Verification development for the MiniSearch response-generation orchestration
(src/client/modules/textGeneration.ts).

The TypeScript module is asynchronous, stateful glue code over three streaming
text-generation backends.  We embed it shallowly as trace-producing functions:

* pure helpers (`getFormattedSearchResults`, the `updateResponseRateLimited`
  rate limiter, `startSearch`) are translated directly as Lean functions,
  with the external `search()` call and the `keyword-extractor` library
  supplied as oracles;
* the orchestration (`prepareTextGeneration` and the three
  `generateTextWith…` functions) is an interpreter from an environment
  record `Env` — settings, the stream of chunks each backend would deliver,
  the points at which external calls throw, and the schedule on which the
  user raises the cooperative interruption flag — to a `Sys` state carrying
  the shared `textGenerationState`, the rate-limiter clock, and the ordered
  list of observable events (pub/sub writes, backend invocations, abort
  calls, log entries).  `await untilUiIsUpdated()` has no observable effect
  and produces no event.  External writes of the `"interrupted"` state are
  modelled by Boolean schedules consulted at exactly the program points
  where the TypeScript reads the shared state.
-/

namespace MiniSearch

/-- The values written to / read from the shared `textGenerationState`
pub/sub cell by src/client/modules/textGeneration.ts. -/
inductive TGState
  | idle
  | loadingModel
  | awaitingSearchResults
  | preparingToGenerate
  | generating
  | interrupted
  | completed
  | failed
deriving DecidableEq, Repr

/-- Values written to the `searchState` pub/sub cell. -/
inductive SearchState
  | running
  | completed
  | failed
deriving DecidableEq, Repr

/-- The three text-generation backends. -/
inductive Backend
  | openAi
  | webLlm
  | wllama
deriving DecidableEq, Repr

/-- The settings fields read by textGeneration.ts.  `inferenceType` is the
raw string compared against `"openai"` at line 43. -/
structure Settings where
  enableAiResponse : Bool
  inferenceType : String
  enableWebGpu : Bool
  searchResultsToConsider : Nat
deriving DecidableEq, Repr

/-- A text search result, destructured in the source as
`[title, snippet, url]`. -/
abbrev TextResult := String × String × String

/-- Shape of the object returned by `search()` and stored by
`updateSearchResults`.  Image results are opaque to this module. -/
structure SearchResults where
  textResults : List TextResult
  imageResults : List String
deriving DecidableEq, Repr

/-! ### getFormattedSearchResults (lines 293-313) -/

/-- One line of the URL-including format:
```${index + 1}. [${title}](${url}) | ${snippet}`` (line 305). -/
def urlLine (index : Nat) (r : TextResult) : String :=
  toString (index + 1) ++ ". [" ++ r.1 ++ "](" ++ r.2.2 ++ ") | " ++ r.2.1

/-- One line of the URL-free format: ``- ${title} | ${snippet}`` (line 311). -/
def plainLine (r : TextResult) : String :=
  "- " ++ r.1 ++ " | " ++ r.2.1

/-- `getFormattedSearchResults` (lines 293-313): truncates the stored text
results to `searchResultsToConsider`, returns `"None."` when the truncation
is empty, and otherwise joins the formatted lines with `"\n"`. -/
def getFormattedSearchResults (shouldIncludeUrl : Bool)
    (textResults : List TextResult) (searchResultsToConsider : Nat) : String :=
  let searchResults := textResults.take searchResultsToConsider
  if searchResults.length = 0 then "None."
  else if shouldIncludeUrl then
    String.intercalate "\n" (searchResults.enum.map fun p => urlLine p.1 p.2)
  else
    String.intercalate "\n" (searchResults.map plainLine)

/-! ### updateResponseRateLimited (lines 356-368) -/

/-- `updateResponseRateLimited.updateInterval = 1000 / 12` (line 368).
Call times are integer milliseconds (`Date.now()`), so the comparison with
the JavaScript double `1000 / 12` agrees with the exact rational. -/
def updateInterval : ℚ := 1000 / 12

/-- One call of `updateResponseRateLimited` (lines 356-366): given the stored
`lastUpdateTime` and the current time, returns the new `lastUpdateTime` and
whether the response text was forwarded to `updateResponse`.  The source
compares `currentTime - lastUpdateTime >= 1000 / 12`; over the integer
millisecond times of `Date.now()` the comparison with the exact rational
`1000 / 12` is equivalent to the cross-multiplied integer comparison used
here (`rlStep_cond` proves the equivalence), which the kernel can compute. -/
def rlStep (lastUpdateTime currentTime : ℤ) : ℤ × Bool :=
  if 1000 ≤ 12 * (currentTime - lastUpdateTime) then
    (currentTime, true)
  else
    (lastUpdateTime, false)

/-- The integer test in `rlStep` is exactly the source's comparison of the
elapsed time with `updateInterval = 1000 / 12`. -/
theorem rlStep_cond (lastUpdateTime currentTime : ℤ) :
    1000 ≤ 12 * (currentTime - lastUpdateTime) ↔
      updateInterval ≤ (currentTime : ℚ) - (lastUpdateTime : ℚ) := by
  rw [updateInterval, div_le_iff (by norm_num : (0:ℚ) < 12)]
  constructor
  · intro h
    have h2 : ((1000 : ℤ) : ℚ) ≤ ((12 * (currentTime - lastUpdateTime) : ℤ) : ℚ) := by
      exact_mod_cast h
    push_cast at h2
    linarith
  · intro h
    have h2 : ((1000 : ℤ) : ℚ) ≤ ((12 * (currentTime - lastUpdateTime) : ℤ) : ℚ) := by
      push_cast
      linarith
    exact_mod_cast h2

/-- A sequence of calls to `updateResponseRateLimited` at the given times;
returns, per call, the call time and whether it forwarded. -/
def rlRun : ℤ → List ℤ → List (ℤ × Bool)
  | _, [] => []
  | lastUpdateTime, t :: ts =>
    let p := rlStep lastUpdateTime t
    (t, p.2) :: rlRun p.1 ts

/-- The times of the calls that actually forwarded to `updateResponse`. -/
def forwardedTimes (lastUpdateTime : ℤ) (ts : List ℤ) : List ℤ :=
  ((rlRun lastUpdateTime ts).filter fun p => p.2).map fun p => p.1

/-! ### getKeywords and startSearch (lines 315-346) -/

/-- Oracles for the two external calls made by `startSearch`: the
`keyword-extractor` library's `extract` and the `search()` module call
(always invoked with limit 30 here). -/
structure SearchEnv where
  extract : String → List String
  searchFn : String → Nat → SearchResults

/-- `getKeywords` (lines 315-319): extractor output truncated to `limit`. -/
def getKeywords (env : SearchEnv) (text : String) (limit : Nat) : List String :=
  (env.extract text).take limit

/-- The first query `startSearch` passes to `search()`: the raw query, or 20
keywords when it is longer than 2000 characters (line 327). -/
def firstSearchQuery (env : SearchEnv) (query : String) : String :=
  if query.length > 2000 then String.intercalate " " (getKeywords env query 20)
  else query

/-- Observable outcome of one `startSearch` run: the query strings passed to
`search()` in order, the final results, and the final `searchState`. -/
structure SearchRun where
  queries : List String
  results : SearchResults
  finalState : SearchState
deriving DecidableEq, Repr

/-- `startSearch` (lines 321-346): first search with the raw query (or 20
keywords when it exceeds 2000 characters), one retry with 10 keywords when
the text results are empty, and a final state of `failed` exactly when the
final text-result list is empty. -/
def startSearch (env : SearchEnv) (query : String) : SearchRun :=
  let firstQuery := firstSearchQuery env query
  let r1 := env.searchFn firstQuery 30
  let p :=
    if r1.textResults.length = 0 then
      let retryQuery := String.intercalate " " (getKeywords env query 10)
      ([firstQuery, retryQuery], env.searchFn retryQuery 30)
    else ([firstQuery], r1)
  { queries := p.1
    results := p.2
    finalState := if p.2.textResults.length = 0 then SearchState.failed
                  else SearchState.completed }

/-! ### Observable events of the orchestration -/

/-- Observable actions of `prepareTextGeneration` and the backend runners,
in program order.  Pub/sub writes carry their payload; `pollEv` records each
read of the shared generation state inside a token loop; `abortEv` records
the interruption-branch call of the backend's own abort mechanism
(`completion.controller.abort()`, `engine.interruptGenerate()`,
`abortSignal()`), while `stopAbortEv` records the Wllama stop-string
`abortSignal()` call (line 274). -/
inductive Event
  | setTitle
  | setResponse (text : String)
  | setResponseRL (text : String)
  | setSearchResultsEv
  | searchStart
  | setSearchState (v : SearchState)
  | setTG (v : TGState)
  | awaitSearch
  | invoke (b : Backend)
  | completionCall (b : Backend)
  | pollEv (v : TGState)
  | abortEv (b : Backend)
  | stopAbortEv
  | logSkipWebLlm
  | logErrorEv
  | logTimingEv
deriving DecidableEq, Repr

/-- Shared mutable state threaded through the run: the generation-state cell,
the rate limiter's `lastUpdateTime`, and the event trace so far. -/
structure Sys where
  tgState : TGState
  rlLast : ℤ
  events : List Event
deriving Repr

def emit (s : Sys) (e : Event) : Sys :=
  { s with events := s.events ++ [e] }

def emits (s : Sys) (es : List Event) : Sys :=
  { s with events := s.events ++ es }

/-- `updateTextGenerationState(v)`: write the cell and record the write. -/
def setTGAct (s : Sys) (v : TGState) : Sys :=
  { tgState := v, rlLast := s.rlLast, events := s.events ++ [Event.setTG v] }

/-! ### Environment (oracle) for one `prepareTextGeneration` run -/

/-- All external inputs of one run: the query and settings, WebGPU
availability, the initial rate-limiter clock, and per backend the stream the
library would deliver, which external calls throw, the chunk timestamps, and
the schedule on which the user externally writes `"interrupted"` into the
shared state (`…Ext k` = the flag was raised before the poll of token `k`).
`…ErrAfter = some j` means the stream throws after delivering `j` chunks
(when fewer than `j` chunks exist the stream just ends). -/
structure Env where
  query : String
  settings : Settings
  isWebGPUAvailable : Bool
  rl0 : ℤ
  extAtFinish : Bool
  openAiCreateThrows : Bool
  openAiChunks : List (Option String)
  openAiErrAfter : Option Nat
  openAiExt : Nat → Bool
  openAiTime : Nat → ℤ
  webLlmPreThrows : Bool
  webLlmCached : Bool
  webLlmEngineThrows : Bool
  webLlmCreateThrows : Bool
  webLlmChunks : List (Option String)
  webLlmErrAfter : Option Nat
  webLlmExt : Nat → Bool
  webLlmTime : Nat → ℤ
  wllamaInitThrows : Bool
  wllamaCreateThrows : Bool
  wllamaTokens : List String
  wllamaStopStrings : Option (List String)
  wllamaExt : Nat → Bool
  wllamaTime : Nat → ℤ

/-! ### The OpenAI / WebLLM token loop (lines 108-120 and 192-204) -/

/-- JavaScript truthiness of `chunk.choices[0].delta.content`: absent and
empty-string deltas are not appended. -/
def chunkTruthy : Option String → Bool
  | none => false
  | some s => !(s == "")

/-- State local to one token loop: the shared generation-state cell, the
`streamedMessage` buffer, and the shared rate-limiter clock and trace. -/
structure LoopSt where
  tg : TGState
  streamed : String
  rlLast : ℤ
  events : List Event
deriving Repr

/-- One iteration of the OpenAI/WebLLM `for await` body: append a truthy
delta, poll the shared state (after an external `"interrupted"` write when
`ext` holds), abort on `"interrupted"`, otherwise promote the state to
`"generating"` on first sight, then `updateResponseRateLimited`.  Returns
the new state and whether the abort mechanism was invoked (which ends the
stream). -/
def streamStep (b : Backend) (ext : Bool) (t : ℤ) (st : LoopSt)
    (chunk : Option String) : LoopSt × Bool :=
  let streamed := if chunkTruthy chunk then st.streamed ++ chunk.getD "" else st.streamed
  let tg0 := if ext then TGState.interrupted else st.tg
  let ev1 := st.events ++ [Event.pollEv tg0]
  let q :=
    if tg0 = TGState.interrupted then
      (tg0, ev1 ++ [Event.abortEv b], true)
    else if tg0 ≠ TGState.generating then
      (TGState.generating, ev1 ++ [Event.setTG TGState.generating], false)
    else (tg0, ev1, false)
  let r := rlStep st.rlLast t
  let ev3 := if r.2 then q.2.1 ++ [Event.setResponseRL streamed] else q.2.1
  ({ tg := q.1, streamed := streamed, rlLast := r.1, events := ev3 }, q.2.2)

/-- The OpenAI/WebLLM token loop over the delivered chunks, truncated when
the abort mechanism fires; `k` is the index of the next chunk (used by the
external-interruption and timestamp schedules). -/
def streamLoop (b : Backend) (ext : Nat → Bool) (time : Nat → ℤ) :
    Nat → LoopSt → List (Option String) → LoopSt × Bool
  | _, st, [] => (st, false)
  | k, st, c :: cs =>
    let r := streamStep b (ext k) (time k) st c
    if r.2 then (r.1, true) else streamLoop b ext time (k + 1) r.1 cs

/-! ### The Wllama `onNewToken` callback (lines 262-284) -/

/-- JavaScript `s.slice(-n)` for a non-negative `n` (note `slice(-0)` is
`slice(0)`, the whole string). -/
def sliceFromEnd (s : String) (n : Nat) : String :=
  if n = 0 then s else (s.toList.drop (s.toList.length - n)).asString

/-- JavaScript `s.slice(0, -n)` for a non-negative `n` (note `slice(0, -0)`
is `slice(0, 0)`, the empty string). -/
def dropFromEnd (s : String) (n : Nat) : String :=
  if n = 0 then "" else (s.toList.take (s.toList.length - n)).asString

/-- Whether `sub` occurs as a contiguous run inside `s`. -/
def listIncludes : List Char → List Char → Bool
  | [], sub => sub.isEmpty
  | c :: tl, sub => sub.isPrefixOf (c :: tl) || listIncludes tl sub

/-- JavaScript `String.prototype.includes`. -/
def strIncludes (s sub : String) : Bool :=
  listIncludes s.toList sub.toList

/-- One `onNewToken` callback run: poll the shared state first (abort on
`"interrupted"`, else promote to `"generating"`), then scan the stop strings
(first match aborts and trims `currentText`), assign `streamedMessage`, and
`updateResponseRateLimited`.  Returns whether generation stops here. -/
def wllamaStep (stopStrings : Option (List String)) (ext : Bool) (t : ℤ)
    (st : LoopSt) (currentText : String) : LoopSt × Bool :=
  let tg0 := if ext then TGState.interrupted else st.tg
  let ev1 := st.events ++ [Event.pollEv tg0]
  let q :=
    if tg0 = TGState.interrupted then
      (tg0, ev1 ++ [Event.abortEv Backend.wllama], true)
    else if tg0 ≠ TGState.generating then
      (TGState.generating, ev1 ++ [Event.setTG TGState.generating], false)
    else (tg0, ev1, false)
  let w :=
    match stopStrings with
    | none => (currentText, q.2.1, false)
    | some ss =>
      match ss.find? fun (stop : String) => strIncludes (sliceFromEnd currentText (stop.length * 2)) stop with
      | some stop => (dropFromEnd currentText stop.length, q.2.1 ++ [Event.stopAbortEv], true)
      | none => (currentText, q.2.1, false)
  let r := rlStep st.rlLast t
  let ev4 := if r.2 then w.2.1 ++ [Event.setResponseRL w.1] else w.2.1
  ({ tg := q.1, streamed := w.1, rlLast := r.1, events := ev4 }, q.2.2 || w.2.2)

/-- The Wllama token sequence: the library supplies the cumulative
`currentText` of each token; generation stops after an `abortSignal()`
call (interruption or stop string). -/
def wllamaLoop (stopStrings : Option (List String)) (ext : Nat → Bool)
    (time : Nat → ℤ) : Nat → LoopSt → List String → LoopSt × Bool
  | _, st, [] => (st, false)
  | k, st, c :: cs =>
    let r := wllamaStep stopStrings (ext k) (time k) st c
    if r.2 then (r.1, true) else wllamaLoop stopStrings ext time (k + 1) r.1 cs

/-! ### The three backend runners (lines 77-291) -/

/-- Result of running one backend: the events it appended, the value left in
the shared generation-state cell, the rate-limiter clock, and whether it
threw (rejected). -/
structure BackendOut where
  events : List Event
  tg : TGState
  rlLast : ℤ
  throws : Bool

/-- `canStartResponding` (lines 348-354): when `searchResultsToConsider > 0`,
set the state to `"awaitingSearchResults"` and await the search promise
(`awaitSearch` marks that await completing); otherwise do nothing. -/
def canStartRespondingEv (settings : Settings) : List Event :=
  if settings.searchResultsToConsider > 0 then
    [Event.setTG TGState.awaitingSearchResults, Event.awaitSearch]
  else []

/-- The chunks the stream actually delivers when it throws after `j`. -/
def effChunks (cs : List (Option String)) : Option Nat → List (Option String)
  | some j => cs.take j
  | none => cs

/-- Whether the stream raises an error (only when the error point is reached
before the stream ends). -/
def streamThrowsAt (cs : List (Option String)) : Option Nat → Bool
  | some j => decide (j < cs.length)
  | none => false

/-- `generateTextWithOpenAI` (lines 77-123): `canStartResponding`, set
`"preparingToGenerate"`, issue the streaming completion call (which may
throw), run the token loop, and finally `updateResponse(streamedMessage)`.
A mid-stream error propagates before that final `updateResponse`. -/
def generateTextWithOpenAI (env : Env) (s : Sys) : BackendOut :=
  let e0 := canStartRespondingEv env.settings ++
    [Event.setTG TGState.preparingToGenerate, Event.completionCall Backend.openAi]
  if env.openAiCreateThrows then
    { events := e0, tg := TGState.preparingToGenerate, rlLast := s.rlLast, throws := true }
  else
    let st0 : LoopSt :=
      { tg := TGState.preparingToGenerate, streamed := "", rlLast := s.rlLast, events := e0 }
    let r := streamLoop Backend.openAi env.openAiExt env.openAiTime 0 st0
      (effChunks env.openAiChunks env.openAiErrAfter)
    if !r.2 && streamThrowsAt env.openAiChunks env.openAiErrAfter then
      { events := r.1.events, tg := r.1.tg, rlLast := r.1.rlLast, throws := true }
    else
      { events := r.1.events ++ [Event.setResponse r.1.streamed]
        tg := r.1.tg, rlLast := r.1.rlLast, throws := false }

/-- `generateTextWithWebLlm` (lines 125-214): the module import and cache
probe may throw; a cached model writes `"preparingToGenerate"` before the
engine is created; engine creation may throw; then (when AI responses are
enabled) the same await/generate sequence as OpenAI.  The final
`runtimeStatsText` log and `engine.unload()` produce no modelled event. -/
def generateTextWithWebLlm (env : Env) (s : Sys) : BackendOut :=
  if env.webLlmPreThrows then
    { events := [], tg := s.tgState, rlLast := s.rlLast, throws := true }
  else
    let cachedEv := if env.webLlmCached then [Event.setTG TGState.preparingToGenerate] else []
    let tg1 := if env.webLlmCached then TGState.preparingToGenerate else s.tgState
    if env.webLlmEngineThrows then
      { events := cachedEv, tg := tg1, rlLast := s.rlLast, throws := true }
    else if env.settings.enableAiResponse then
      let e0 := cachedEv ++ canStartRespondingEv env.settings ++
        [Event.setTG TGState.preparingToGenerate, Event.completionCall Backend.webLlm]
      if env.webLlmCreateThrows then
        { events := e0, tg := TGState.preparingToGenerate, rlLast := s.rlLast, throws := true }
      else
        let st0 : LoopSt :=
          { tg := TGState.preparingToGenerate, streamed := "", rlLast := s.rlLast, events := e0 }
        let r := streamLoop Backend.webLlm env.webLlmExt env.webLlmTime 0 st0
          (effChunks env.webLlmChunks env.webLlmErrAfter)
        if !r.2 && streamThrowsAt env.webLlmChunks env.webLlmErrAfter then
          { events := r.1.events, tg := r.1.tg, rlLast := r.1.rlLast, throws := true }
        else
          { events := r.1.events ++ [Event.setResponse r.1.streamed]
            tg := r.1.tg, rlLast := r.1.rlLast, throws := false }
    else
      { events := cachedEv, tg := tg1, rlLast := s.rlLast, throws := false }

/-- `generateTextWithWllama` (lines 216-291): model initialization may
throw; then (when AI responses are enabled) `canStartResponding`, set
`"preparingToGenerate"`, build the prompt and start the completion (which
may throw), run the `onNewToken` callback over the delivered tokens, and
finally `updateResponse(streamedMessage)`.  `wllama.exit()` produces no
modelled event. -/
def generateTextWithWllama (env : Env) (s : Sys) : BackendOut :=
  if env.wllamaInitThrows then
    { events := [], tg := s.tgState, rlLast := s.rlLast, throws := true }
  else if env.settings.enableAiResponse then
    let e0 := canStartRespondingEv env.settings ++
      [Event.setTG TGState.preparingToGenerate, Event.completionCall Backend.wllama]
    if env.wllamaCreateThrows then
      { events := e0, tg := TGState.preparingToGenerate, rlLast := s.rlLast, throws := true }
    else
      let st0 : LoopSt :=
        { tg := TGState.preparingToGenerate, streamed := "", rlLast := s.rlLast, events := e0 }
      let r := wllamaLoop env.wllamaStopStrings env.wllamaExt env.wllamaTime 0 st0
        env.wllamaTokens
      { events := r.1.events ++ [Event.setResponse r.1.streamed]
        tg := r.1.tg, rlLast := r.1.rlLast, throws := false }
  else
    { events := [], tg := s.tgState, rlLast := s.rlLast, throws := false }

/-! ### prepareTextGeneration (lines 22-75) -/

/-- Record a backend invocation, run it, and fold its output into the
shared state. -/
def runBackend (s : Sys) (b : Backend) (f : Sys → BackendOut) : Sys × Bool :=
  let s1 := emit s (Event.invoke b)
  let out := f s1
  ({ tgState := out.tg, rlLast := out.rlLast, events := s1.events ++ out.events }, out.throws)

/-- The `try` body's backend dispatch (lines 42-57): OpenAI directly for
`inferenceType === "openai"`; otherwise WebLLM guarded by the two WebGPU
checks, any error from that inner block being caught, logged, and answered
by a single Wllama run.  Returns the state and whether an error escaped. -/
def dispatchBackends (env : Env) (s : Sys) : Sys × Bool :=
  if env.settings.inferenceType == "openai" then
    runBackend s Backend.openAi (generateTextWithOpenAI env)
  else
    let p :=
      if !env.isWebGPUAvailable || !env.settings.enableWebGpu then (s, true)
      else runBackend s Backend.webLlm (generateTextWithWebLlm env)
    if p.2 then
      runBackend (emit p.1 Event.logSkipWebLlm) Backend.wllama (generateTextWithWllama env)
    else (p.1, false)

/-- The shared state at module entry. -/
def initialSys (env : Env) : Sys :=
  { tgState := TGState.idle, rlLast := env.rl0, events := [] }

/-- Lines 25-31 for a non-empty query: set the document title, clear the
response, clear the search results, and start the search (whose synchronous
prefix writes `searchState := "running"` before its first await). -/
def preSearchEvents : List Event :=
  [Event.setTitle, Event.setResponse "", Event.setSearchResultsEv,
   Event.searchStart, Event.setSearchState SearchState.running]

/-- The state right after `updateTextGenerationState("loadingModel")`
(line 37), before the `try`. -/
def loadingSys (env : Env) : Sys :=
  setTGAct (emits (initialSys env) preSearchEvents) TGState.loadingModel

/-- `prepareTextGeneration` (lines 22-75): return immediately on an empty
query; start the search and stop there when AI responses are disabled;
otherwise set `"loadingModel"`, dispatch the backends, and finish: an
escaped error is logged and surfaced as `"failed"`; otherwise the state
becomes `"completed"` unless it reads `"interrupted"` at line 59
(`extAtFinish` models an external interruption write raised by the time of
that read).  The closing duration log is the final event. -/
def prepareTextGeneration (env : Env) : Sys :=
  if env.query == "" then initialSys env
  else if !env.settings.enableAiResponse then emits (initialSys env) preSearchEvents
  else
    let p := dispatchBackends env (loadingSys env)
    if p.2 then
      emit (setTGAct (emit p.1 Event.logErrorEv) TGState.failed) Event.logTimingEv
    else
      let tgAfter := if env.extAtFinish then TGState.interrupted else p.1.tgState
      let s4 : Sys := { tgState := tgAfter, rlLast := p.1.rlLast, events := p.1.events }
      if tgAfter = TGState.interrupted then emit s4 Event.logTimingEv
      else emit (setTGAct s4 TGState.completed) Event.logTimingEv

/-! ### Trace projections -/

/-- The generation-state value a trace event writes, if any. -/
def tgOf : Event → Option TGState
  | Event.setTG v => some v
  | _ => none

/-- The sequence of generation-state writes in a trace. -/
def tgWrites (es : List Event) : List TGState := es.filterMap tgOf

/-- The backend an event invokes, if any. -/
def invokeOf : Event → Option Backend
  | Event.invoke b => some b
  | _ => none

/-- The sequence of backend invocations in a trace. -/
def invocations (es : List Event) : List Backend := es.filterMap invokeOf

/-- The generation-state value a token-loop poll observed, if any. -/
def pollOf : Event → Option TGState
  | Event.pollEv v => some v
  | _ => none

/-- The sequence of polled values in a trace. -/
def polls (es : List Event) : List TGState := es.filterMap pollOf

/-- The payload of an unconditional `updateResponse` write, if any. -/
def respOf : Event → Option String
  | Event.setResponse text => some text
  | _ => none

/-- The text of the last unconditional `updateResponse` write in a trace. -/
def lastSetResponse (es : List Event) : Option String :=
  (es.filterMap respOf).getLast?

/-- Folding one chunk into `streamedMessage` (lines 109-111). -/
def chunkFold (acc : String) (c : Option String) : String :=
  if chunkTruthy c then acc ++ c.getD "" else acc

/-- The concatenation, in stream order, of the truthy delta contents. -/
def concatDeltas (cs : List (Option String)) : String :=
  cs.foldl chunkFold ""

/-- Events a token loop may emit: polls, abort calls, stop-string aborts,
rate-limited response forwards, and the `"generating"` state write. -/
def loopEvent : Event → Bool
  | Event.pollEv _ => true
  | Event.abortEv _ => true
  | Event.stopAbortEv => true
  | Event.setResponseRL _ => true
  | Event.setTG v => v == TGState.generating
  | _ => false

/-- Events a backend run may emit: everything except backend invocations,
the outer error log, the closing duration log, and state writes other than
`"awaitingSearchResults"`, `"preparingToGenerate"`, `"generating"`. -/
def backendEv : Event → Bool
  | Event.setTG v =>
      v == TGState.awaitingSearchResults || v == TGState.preparingToGenerate ||
        v == TGState.generating
  | Event.invoke _ => false
  | Event.logErrorEv => false
  | Event.logTimingEv => false
  | _ => true

/-- Events the whole backend-dispatch phase may emit: backend events plus
invocations and the fallback log. -/
def midEv : Event → Bool
  | Event.setTG v =>
      v == TGState.awaitingSearchResults || v == TGState.preparingToGenerate ||
        v == TGState.generating
  | Event.logErrorEv => false
  | Event.logTimingEv => false
  | _ => true

theorem loopEvent_backendEv {e : Event} (h : loopEvent e = true) : backendEv e = true := by
  cases e <;> simp_all [loopEvent, backendEv]

theorem backendEv_midEv {e : Event} (h : backendEv e = true) : midEv e = true := by
  cases e <;> simp_all [backendEv, midEv]

theorem backendEv_invokeOf {e : Event} (h : backendEv e = true) : invokeOf e = none := by
  cases e <;> simp_all [backendEv, invokeOf]

theorem midEv_tgOf {e : Event} (h : midEv e = true) :
    ∀ v, tgOf e = some v →
      v = TGState.awaitingSearchResults ∨ v = TGState.preparingToGenerate ∨
        v = TGState.generating := by
  cases e <;> simp_all [midEv, tgOf] <;> tauto

theorem midEv_ne_setTG_completed {e : Event} (h : midEv e = true) :
    e ≠ Event.setTG TGState.completed := by
  intro he
  subst he
  simp [midEv] at h

theorem invocations_nil {es : List Event} (h : ∀ e ∈ es, backendEv e = true) :
    invocations es = [] := by
  induction es with
  | nil => rfl
  | cons e tl ih =>
    have he := backendEv_invokeOf (h e (by simp))
    simp only [invocations, List.filterMap_cons, he]
    exact ih fun x hx => h x (by simp [hx])

theorem tgWrites_of_midEv {es : List Event} (h : ∀ e ∈ es, midEv e = true) :
    ∀ v ∈ tgWrites es, v = TGState.awaitingSearchResults ∨
      v = TGState.preparingToGenerate ∨ v = TGState.generating := by
  intro v hv
  simp only [tgWrites, List.mem_filterMap] at hv
  obtain ⟨e, he, hev⟩ := hv
  exact midEv_tgOf (h e he) v hev

/-! ### Behaviour of one OpenAI/WebLLM loop iteration -/

theorem streamStep_clean {b : Backend} {ext : Bool} {t : ℤ} {st : LoopSt}
    {c : Option String} (hext : ext = false) (h : st.tg ≠ TGState.interrupted) :
    streamStep b ext t st c =
      ({ tg := TGState.generating
         streamed := chunkFold st.streamed c
         rlLast := (rlStep st.rlLast t).1
         events := st.events ++ [Event.pollEv st.tg] ++
           (if st.tg = TGState.generating then [] else [Event.setTG TGState.generating]) ++
           (if (rlStep st.rlLast t).2 then [Event.setResponseRL (chunkFold st.streamed c)]
            else []) }, false) := by
  subst hext
  by_cases hg : st.tg = TGState.generating <;>
    by_cases hrl : (rlStep st.rlLast t).2 <;>
      simp [streamStep, chunkFold, h, hg, hrl, List.append_assoc]

theorem streamStep_abort {b : Backend} {ext : Bool} {t : ℤ} {st : LoopSt}
    {c : Option String}
    (h : (if ext then TGState.interrupted else st.tg) = TGState.interrupted) :
    streamStep b ext t st c =
      ({ tg := TGState.interrupted
         streamed := chunkFold st.streamed c
         rlLast := (rlStep st.rlLast t).1
         events := st.events ++ [Event.pollEv TGState.interrupted, Event.abortEv b] ++
           (if (rlStep st.rlLast t).2 then [Event.setResponseRL (chunkFold st.streamed c)]
            else []) }, true) := by
  by_cases hrl : (rlStep st.rlLast t).2 <;>
    simp [streamStep, chunkFold, h, hrl, List.append_assoc]

theorem streamStep_suffix (b : Backend) (ext : Bool) (t : ℤ) (st : LoopSt)
    (c : Option String) :
    ∃ t1, (streamStep b ext t st c).1.events = st.events ++ t1 ∧
      ∀ e ∈ t1, loopEvent e = true := by
  by_cases h : (if ext then TGState.interrupted else st.tg) = TGState.interrupted
  · rw [streamStep_abort h]
    refine ⟨[Event.pollEv TGState.interrupted, Event.abortEv b] ++
      (if (rlStep st.rlLast t).2 then [Event.setResponseRL (chunkFold st.streamed c)]
       else []), by simp [List.append_assoc], ?_⟩
    intro e he
    rcases List.mem_append.1 he with h1 | h1
    · rcases List.mem_cons.1 h1 with rfl | h1
      · rfl
      · have h2 := List.mem_singleton.1 h1
        subst h2; rfl
    · by_cases hrl : (rlStep st.rlLast t).2 = true
      · rw [if_pos hrl] at h1
        have h2 := List.mem_singleton.1 h1
        subst h2; rfl
      · rw [if_neg hrl] at h1
        exact absurd h1 (List.not_mem_nil e)
  · have hext : ext = false := by
      cases ext
      · rfl
      · simp at h
    have htg : st.tg ≠ TGState.interrupted := by
      subst hext; simpa using h
    rw [streamStep_clean hext htg]
    refine ⟨[Event.pollEv st.tg] ++
      (if st.tg = TGState.generating then [] else [Event.setTG TGState.generating]) ++
      (if (rlStep st.rlLast t).2 then [Event.setResponseRL (chunkFold st.streamed c)]
       else []), by simp [List.append_assoc], ?_⟩
    intro e he
    rcases List.mem_append.1 he with h1 | h1
    · rcases List.mem_append.1 h1 with h2 | h2
      · have h3 := List.mem_singleton.1 h2
        subst h3; rfl
      · by_cases hg : st.tg = TGState.generating
        · rw [if_pos hg] at h2
          exact absurd h2 (List.not_mem_nil e)
        · rw [if_neg hg] at h2
          have h3 := List.mem_singleton.1 h2
          subst h3
          simp [loopEvent]
    · by_cases hrl : (rlStep st.rlLast t).2 = true
      · rw [if_pos hrl] at h1
        have h2 := List.mem_singleton.1 h1
        subst h2; rfl
      · rw [if_neg hrl] at h1
        exact absurd h1 (List.not_mem_nil e)

/-! ### Behaviour of the OpenAI/WebLLM token loop -/

theorem streamLoop_suffix (b : Backend) (ext : Nat → Bool) (time : Nat → ℤ) :
    ∀ (cs : List (Option String)) (k : Nat) (st : LoopSt),
      ∃ t1, (streamLoop b ext time k st cs).1.events = st.events ++ t1 ∧
        ∀ e ∈ t1, loopEvent e = true := by
  intro cs
  induction cs with
  | nil =>
    intro k st
    exact ⟨[], by simp [streamLoop], by simp⟩
  | cons c cs ih =>
    intro k st
    obtain ⟨t1, ht1, hl1⟩ := streamStep_suffix b (ext k) (time k) st c
    by_cases hab : (streamStep b (ext k) (time k) st c).2 = true
    · refine ⟨t1, ?_, hl1⟩
      simp [streamLoop, hab, ht1]
    · obtain ⟨t2, ht2, hl2⟩ := ih (k + 1) (streamStep b (ext k) (time k) st c).1
      refine ⟨t1 ++ t2, ?_, ?_⟩
      · simp only [streamLoop, Bool.not_eq_true] at hab ⊢
        rw [if_neg (by simp [hab])]
        rw [ht2, ht1, List.append_assoc]
      · intro e he
        rcases List.mem_append.1 he with h1 | h1
        · exact hl1 e h1
        · exact hl2 e h1

theorem streamLoop_clean (b : Backend) (ext : Nat → Bool) (time : Nat → ℤ)
    (hext : ∀ j, ext j = false) :
    ∀ (cs : List (Option String)) (k : Nat) (st : LoopSt),
      st.tg ≠ TGState.interrupted →
      ∃ t1, (streamLoop b ext time k st cs).1.events = st.events ++ t1 ∧
        (streamLoop b ext time k st cs).2 = false ∧
        (streamLoop b ext time k st cs).1.streamed = cs.foldl chunkFold st.streamed ∧
        (streamLoop b ext time k st cs).1.tg ≠ TGState.interrupted ∧
        (polls t1).length = cs.length ∧
        (∀ v ∈ polls t1, v ≠ TGState.interrupted) ∧
        (∀ e ∈ t1, loopEvent e = true) ∧
        ∀ b', Event.abortEv b' ∉ t1 := by
  intro cs
  induction cs with
  | nil =>
    intro k st htg
    exact ⟨[], by simp [streamLoop], by simp [streamLoop], by simp [streamLoop],
      by simpa [streamLoop] using htg, by simp [polls], by simp [polls], by simp,
      by simp⟩
  | cons c cs ih =>
    intro k st htg
    have hstep := @streamStep_clean b (ext k) (time k) st c (hext k) htg
    have hab : (streamStep b (ext k) (time k) st c).2 = false := by rw [hstep]
    obtain ⟨t2, ht2, hsnd, hstr, htg2, hplen, hpvals, hl2, hab2⟩ :=
      ih (k + 1) (streamStep b (ext k) (time k) st c).1
        (by rw [hstep]; simp)
    have hunf : streamLoop b ext time k st (c :: cs) =
        streamLoop b ext time (k + 1) (streamStep b (ext k) (time k) st c).1 cs := by
      simp only [streamLoop]
      rw [if_neg (by simp [hab])]
    obtain ⟨t1, ht1, hl1⟩ := streamStep_suffix b (ext k) (time k) st c
    have ht1form : t1 = [Event.pollEv st.tg] ++
        (if st.tg = TGState.generating then [] else [Event.setTG TGState.generating]) ++
        (if (rlStep st.rlLast (time k)).2 then
          [Event.setResponseRL (chunkFold st.streamed c)] else []) := by
      have heq : st.events ++ t1 = (streamStep b (ext k) (time k) st c).1.events := ht1.symm
      rw [hstep] at heq
      simp only at heq
      rw [List.append_assoc, List.append_assoc] at heq
      have h3 := List.append_cancel_left heq
      rw [h3, List.append_assoc]
    have hpolls1 : polls t1 = [st.tg] := by
      rw [ht1form]
      by_cases hg : st.tg = TGState.generating <;>
        by_cases hrl : (rlStep st.rlLast (time k)).2 = true <;>
          simp [polls, hg, hrl, pollOf]
    have habort1 : ∀ b', Event.abortEv b' ∉ t1 := by
      intro b'
      rw [ht1form]
      by_cases hg : st.tg = TGState.generating <;>
        by_cases hrl : (rlStep st.rlLast (time k)).2 = true <;>
          simp [hg, hrl]
    refine ⟨t1 ++ t2, ?_, ?_, ?_, ?_, ?_, ?_, ?_, ?_⟩
    · rw [hunf, ht2, ht1, List.append_assoc]
    · rw [hunf, hsnd]
    · rw [hunf, hstr, hstep]
      simp [chunkFold]
    · rw [hunf]; exact htg2
    · simp only [polls, List.filterMap_append] at hplen ⊢
      simp only [polls] at hpolls1
      rw [hpolls1]
      simp [hplen]
    · intro v hv
      simp only [polls, List.filterMap_append] at hv
      simp only [polls] at hpolls1 hpvals
      rw [hpolls1] at hv
      rcases List.mem_append.1 hv with h1 | h1
      · have := List.mem_singleton.1 h1
        subst this; exact htg
      · exact hpvals v h1
    · intro e he
      rcases List.mem_append.1 he with h1 | h1
      · exact hl1 e h1
      · exact hl2 e h1
    · intro b' hb
      rcases List.mem_append.1 hb with h1 | h1
      · exact habort1 b' h1
      · exact hab2 b' h1

theorem not_mem_of_loopEvents {t1 : List Event}
    (h : ∀ e ∈ t1, loopEvent e = true) {x : Event} (hx : loopEvent x = false) :
    x ∉ t1 := by
  intro hm
  have := h x hm
  simp [this] at hx

theorem streamLoop_hit (b : Backend) (ext : Nat → Bool) (time : Nat → ℤ) :
    ∀ (cs : List (Option String)) (k0 k : Nat) (st : LoopSt),
      ext (k + k0) = true → (∀ j, j < k0 → ext (k + j) = false) →
      st.tg ≠ TGState.interrupted → k0 < cs.length →
      ∃ t1, (streamLoop b ext time k st cs).1.events = st.events ++ t1 ∧
        (streamLoop b ext time k st cs).2 = true ∧
        (streamLoop b ext time k st cs).1.tg = TGState.interrupted ∧
        (polls t1).length = k0 + 1 ∧
        (polls t1).getLast? = some TGState.interrupted ∧
        (∀ v ∈ (polls t1).dropLast, v ≠ TGState.interrupted) ∧
        t1.count (Event.abortEv b) = 1 ∧
        ∀ e ∈ t1, loopEvent e = true := by
  intro cs
  induction cs with
  | nil =>
    intro k0 k st _ _ _ hlen
    exact absurd hlen (by simp)
  | cons c cs ih =>
    intro k0 k st hk0 hbefore htg hlen
    cases k0 with
    | zero =>
      have hk : ext k = true := by simpa using hk0
      have habort : (if ext k then TGState.interrupted else st.tg) = TGState.interrupted := by
        rw [hk]; rfl
      have hstep := @streamStep_abort b (ext k) (time k) st c habort
      have hunf : streamLoop b ext time k st (c :: cs) =
          ((streamStep b (ext k) (time k) st c).1, true) := by
        simp only [streamLoop]
        rw [if_pos (by rw [hstep])]
      refine ⟨[Event.pollEv TGState.interrupted, Event.abortEv b] ++
        (if (rlStep st.rlLast (time k)).2 then
          [Event.setResponseRL (chunkFold st.streamed c)] else []),
        ?_, by rw [hunf], by rw [hunf, hstep], ?_, ?_, ?_, ?_, ?_⟩
      · rw [hunf, hstep]
        simp [List.append_assoc]
      · by_cases hrl : (rlStep st.rlLast (time k)).2 = true <;>
          simp [polls, pollOf, hrl]
      · by_cases hrl : (rlStep st.rlLast (time k)).2 = true <;>
          simp [polls, pollOf, hrl]
      · by_cases hrl : (rlStep st.rlLast (time k)).2 = true <;>
          simp [polls, pollOf, hrl]
      · by_cases hrl : (rlStep st.rlLast (time k)).2 = true <;>
          simp [hrl, List.count_append, List.count_cons, List.count_nil]
      · intro e he
        rcases List.mem_append.1 he with h1 | h1
        · rcases List.mem_cons.1 h1 with rfl | h1
          · rfl
          · have h2 := List.mem_singleton.1 h1
            subst h2; rfl
        · by_cases hrl : (rlStep st.rlLast (time k)).2 = true
          · rw [if_pos hrl] at h1
            have h2 := List.mem_singleton.1 h1
            subst h2; rfl
          · rw [if_neg hrl] at h1
            exact absurd h1 (List.not_mem_nil e)
    | succ j =>
      have hk : ext k = false := by
        have := hbefore 0 (Nat.succ_pos j)
        simpa using this
      have hstep := @streamStep_clean b (ext k) (time k) st c hk htg
      have hab : (streamStep b (ext k) (time k) st c).2 = false := by rw [hstep]
      have hunf : streamLoop b ext time k st (c :: cs) =
          streamLoop b ext time (k + 1) (streamStep b (ext k) (time k) st c).1 cs := by
        simp only [streamLoop]
        rw [if_neg (by simp [hab])]
      have hshift1 : ext (k + 1 + j) = true := by
        have : k + 1 + j = k + (j + 1) := by omega
        rw [this]; exact hk0
      have hshift2 : ∀ i, i < j → ext (k + 1 + i) = false := by
        intro i hi
        have : k + 1 + i = k + (i + 1) := by omega
        rw [this]
        exact hbefore (i + 1) (by omega)
      obtain ⟨t2, ht2, hsnd, htgr, hplen, hplast, hpvals, hcnt, hl2⟩ :=
        ih j (k + 1) (streamStep b (ext k) (time k) st c).1 hshift1 hshift2
          (by rw [hstep]; simp) (by simpa using hlen)
      obtain ⟨t1, ht1, hl1⟩ := streamStep_suffix b (ext k) (time k) st c
      have ht1form : t1 = [Event.pollEv st.tg] ++
          (if st.tg = TGState.generating then [] else [Event.setTG TGState.generating]) ++
          (if (rlStep st.rlLast (time k)).2 then
            [Event.setResponseRL (chunkFold st.streamed c)] else []) := by
        have heq : st.events ++ t1 = (streamStep b (ext k) (time k) st c).1.events := ht1.symm
        rw [hstep] at heq
        simp only at heq
        rw [List.append_assoc, List.append_assoc] at heq
        have h3 := List.append_cancel_left heq
        rw [h3, List.append_assoc]
      have hpolls1 : polls t1 = [st.tg] := by
        rw [ht1form]
        by_cases hg : st.tg = TGState.generating <;>
          by_cases hrl : (rlStep st.rlLast (time k)).2 = true <;>
            simp [polls, hg, hrl, pollOf]
      have hcnt1 : t1.count (Event.abortEv b) = 0 := by
        rw [ht1form]
        by_cases hg : st.tg = TGState.generating <;>
          by_cases hrl : (rlStep st.rlLast (time k)).2 = true <;>
            simp [hg, hrl, List.count_append, List.count_cons, List.count_nil, beq_iff_eq]
      refine ⟨t1 ++ t2, ?_, ?_, ?_, ?_, ?_, ?_, ?_, ?_⟩
      · rw [hunf, ht2, ht1, List.append_assoc]
      · rw [hunf, hsnd]
      · rw [hunf]; exact htgr
      · simp only [polls, List.filterMap_append] at hplen ⊢
        simp only [polls] at hpolls1
        rw [hpolls1]
        simp [hplen]
      · simp only [polls, List.filterMap_append] at hplast ⊢
        simp only [polls] at hpolls1
        rw [hpolls1]
        have hne : List.filterMap pollOf t2 ≠ [] := by
          intro hnil
          have hlen2 : (polls t2).length = j + 1 := hplen
          simp only [polls] at hlen2
          rw [hnil] at hlen2
          simp at hlen2
        rw [List.getLast?_append_of_ne_nil _ hne]
        exact hplast
      · simp only [polls, List.filterMap_append] at hpvals ⊢
        simp only [polls] at hpolls1
        rw [hpolls1]
        have hne : List.filterMap pollOf t2 ≠ [] := by
          intro hnil
          have hlen2 : (polls t2).length = j + 1 := hplen
          simp only [polls] at hlen2
          rw [hnil] at hlen2
          simp at hlen2
        rw [List.dropLast_append_of_ne_nil _ hne]
        intro v hv
        rcases List.mem_append.1 hv with h1 | h1
        · have := List.mem_singleton.1 h1
          subst this; exact htg
        · exact hpvals v h1
      · rw [List.count_append, hcnt1, hcnt]
      · intro e he
        rcases List.mem_append.1 he with h1 | h1
        · exact hl1 e h1
        · exact hl2 e h1

/-! ### Behaviour of one Wllama `onNewToken` run -/

theorem loopEvents_append {l1 l2 : List Event} (h1 : ∀ e ∈ l1, loopEvent e = true)
    (h2 : ∀ e ∈ l2, loopEvent e = true) : ∀ e ∈ l1 ++ l2, loopEvent e = true := by
  intro e he
  rcases List.mem_append.1 he with h | h
  · exact h1 e h
  · exact h2 e h

theorem loopEvents_single {x : Event} (hx : loopEvent x = true) :
    ∀ e ∈ [x], loopEvent e = true := by
  intro e he
  rw [List.mem_singleton.1 he]
  exact hx

theorem loopEvents_nil : ∀ e ∈ ([] : List Event), loopEvent e = true := by simp

theorem loopEvents_ite {c : Prop} [Decidable c] {l1 l2 : List Event}
    (h1 : ∀ e ∈ l1, loopEvent e = true) (h2 : ∀ e ∈ l2, loopEvent e = true) :
    ∀ e ∈ (if c then l1 else l2), loopEvent e = true := by
  split
  · exact h1
  · exact h2

theorem wllamaStep_clean {ext : Bool} {t : ℤ} {st : LoopSt} {cur : String}
    (hext : ext = false) (h : st.tg ≠ TGState.interrupted) :
    wllamaStep none ext t st cur =
      ({ tg := TGState.generating
         streamed := cur
         rlLast := (rlStep st.rlLast t).1
         events := st.events ++ [Event.pollEv st.tg] ++
           (if st.tg = TGState.generating then [] else [Event.setTG TGState.generating]) ++
           (if (rlStep st.rlLast t).2 then [Event.setResponseRL cur] else []) }, false) := by
  subst hext
  by_cases hg : st.tg = TGState.generating <;>
    by_cases hrl : (rlStep st.rlLast t).2 <;>
      simp [wllamaStep, h, hg, hrl, List.append_assoc]

theorem wllamaStep_abort {ext : Bool} {t : ℤ} {st : LoopSt} {cur : String}
    (h : (if ext then TGState.interrupted else st.tg) = TGState.interrupted) :
    wllamaStep none ext t st cur =
      ({ tg := TGState.interrupted
         streamed := cur
         rlLast := (rlStep st.rlLast t).1
         events := st.events ++ [Event.pollEv TGState.interrupted, Event.abortEv Backend.wllama] ++
           (if (rlStep st.rlLast t).2 then [Event.setResponseRL cur] else []) }, true) := by
  by_cases hrl : (rlStep st.rlLast t).2 <;>
    simp [wllamaStep, h, hrl, List.append_assoc]

theorem wllamaStep_suffix (ss : Option (List String)) (ext : Bool) (t : ℤ)
    (st : LoopSt) (cur : String) :
    ∃ t1, (wllamaStep ss ext t st cur).1.events = st.events ++ t1 ∧
      ∀ e ∈ t1, loopEvent e = true := by
  by_cases hpoll : (if ext then TGState.interrupted else st.tg) = TGState.interrupted
  · rcases ss with _ | ss
    · refine ⟨[Event.pollEv TGState.interrupted, Event.abortEv Backend.wllama] ++
        (if (rlStep st.rlLast t).2 then [Event.setResponseRL cur] else []),
        by by_cases hrl : (rlStep st.rlLast t).2 = true <;>
          simp [wllamaStep, hpoll, hrl, List.append_assoc], ?_⟩
      refine loopEvents_append ?_ (loopEvents_ite (loopEvents_single rfl) loopEvents_nil)
      intro e he
      rcases List.mem_cons.1 he with rfl | he
      · rfl
      · rw [List.mem_singleton.1 he]; rfl
    · rcases hfind : ss.find? (fun stop => strIncludes (sliceFromEnd cur (stop.length * 2)) stop)
        with _ | stop
      · refine ⟨[Event.pollEv TGState.interrupted, Event.abortEv Backend.wllama] ++
          (if (rlStep st.rlLast t).2 then [Event.setResponseRL cur] else []),
          by by_cases hrl : (rlStep st.rlLast t).2 = true <;>
            simp [wllamaStep, hpoll, hfind, hrl, List.append_assoc], ?_⟩
        refine loopEvents_append ?_ (loopEvents_ite (loopEvents_single rfl) loopEvents_nil)
        intro e he
        rcases List.mem_cons.1 he with rfl | he
        · rfl
        · rw [List.mem_singleton.1 he]; rfl
      · refine ⟨[Event.pollEv TGState.interrupted, Event.abortEv Backend.wllama] ++
          [Event.stopAbortEv] ++
          (if (rlStep st.rlLast t).2 then
            [Event.setResponseRL (dropFromEnd cur stop.length)] else []),
          by by_cases hrl : (rlStep st.rlLast t).2 = true <;>
            simp [wllamaStep, hpoll, hfind, hrl, List.append_assoc], ?_⟩
        refine loopEvents_append (loopEvents_append ?_ (loopEvents_single rfl))
          (loopEvents_ite (loopEvents_single rfl) loopEvents_nil)
        intro e he
        rcases List.mem_cons.1 he with rfl | he
        · rfl
        · rw [List.mem_singleton.1 he]; rfl
  · have hext : ext = false := by
      cases ext
      · rfl
      · simp at hpoll
    subst hext
    have hpoll2 : st.tg ≠ TGState.interrupted := by simpa using hpoll
    rcases ss with _ | ss
    · refine ⟨[Event.pollEv st.tg] ++
        (if st.tg = TGState.generating then [] else [Event.setTG TGState.generating]) ++
        (if (rlStep st.rlLast t).2 then [Event.setResponseRL cur] else []), ?_, ?_⟩
      · by_cases hg : st.tg = TGState.generating <;>
          by_cases hrl : (rlStep st.rlLast t).2 = true <;>
            simp [wllamaStep, hpoll2, hg, hrl, List.append_assoc]
      · refine loopEvents_append (loopEvents_append (loopEvents_single rfl)
          (loopEvents_ite loopEvents_nil (loopEvents_single rfl))) ?_
        exact loopEvents_ite (loopEvents_single rfl) loopEvents_nil
    · rcases hfind : ss.find? (fun stop => strIncludes (sliceFromEnd cur (stop.length * 2)) stop)
        with _ | stop
      · refine ⟨[Event.pollEv st.tg] ++
          (if st.tg = TGState.generating then [] else [Event.setTG TGState.generating]) ++
          (if (rlStep st.rlLast t).2 then [Event.setResponseRL cur] else []), ?_, ?_⟩
        · by_cases hg : st.tg = TGState.generating <;>
            by_cases hrl : (rlStep st.rlLast t).2 = true <;>
              simp [wllamaStep, hpoll2, hg, hrl, hfind, List.append_assoc]
        · refine loopEvents_append (loopEvents_append (loopEvents_single rfl)
            (loopEvents_ite loopEvents_nil (loopEvents_single rfl))) ?_
          exact loopEvents_ite (loopEvents_single rfl) loopEvents_nil
      · refine ⟨[Event.pollEv st.tg] ++
          (if st.tg = TGState.generating then [] else [Event.setTG TGState.generating]) ++
          [Event.stopAbortEv] ++
          (if (rlStep st.rlLast t).2 then
            [Event.setResponseRL (dropFromEnd cur stop.length)] else []), ?_, ?_⟩
        · by_cases hg : st.tg = TGState.generating <;>
            by_cases hrl : (rlStep st.rlLast t).2 = true <;>
              simp [wllamaStep, hpoll2, hg, hrl, hfind, List.append_assoc]
        · refine loopEvents_append (loopEvents_append (loopEvents_append
            (loopEvents_single rfl) (loopEvents_ite loopEvents_nil (loopEvents_single rfl)))
            (loopEvents_single rfl)) ?_
          exact loopEvents_ite (loopEvents_single rfl) loopEvents_nil

/-! ### Behaviour of the Wllama token loop -/

theorem wllamaLoop_suffix (ss : Option (List String)) (ext : Nat → Bool)
    (time : Nat → ℤ) :
    ∀ (cs : List String) (k : Nat) (st : LoopSt),
      ∃ t1, (wllamaLoop ss ext time k st cs).1.events = st.events ++ t1 ∧
        ∀ e ∈ t1, loopEvent e = true := by
  intro cs
  induction cs with
  | nil =>
    intro k st
    exact ⟨[], by simp [wllamaLoop], by simp⟩
  | cons c cs ih =>
    intro k st
    obtain ⟨t1, ht1, hl1⟩ := wllamaStep_suffix ss (ext k) (time k) st c
    by_cases hab : (wllamaStep ss (ext k) (time k) st c).2 = true
    · refine ⟨t1, ?_, hl1⟩
      simp [wllamaLoop, hab, ht1]
    · obtain ⟨t2, ht2, hl2⟩ := ih (k + 1) (wllamaStep ss (ext k) (time k) st c).1
      refine ⟨t1 ++ t2, ?_, loopEvents_append hl1 hl2⟩
      simp only [wllamaLoop, Bool.not_eq_true] at hab ⊢
      rw [if_neg (by simp [hab])]
      rw [ht2, ht1, List.append_assoc]

theorem wllamaLoop_clean (ext : Nat → Bool) (time : Nat → ℤ)
    (hext : ∀ j, ext j = false) :
    ∀ (cs : List String) (k : Nat) (st : LoopSt),
      st.tg ≠ TGState.interrupted →
      ∃ t1, (wllamaLoop none ext time k st cs).1.events = st.events ++ t1 ∧
        (wllamaLoop none ext time k st cs).2 = false ∧
        (wllamaLoop none ext time k st cs).1.tg ≠ TGState.interrupted ∧
        (polls t1).length = cs.length ∧
        (∀ v ∈ polls t1, v ≠ TGState.interrupted) ∧
        (∀ e ∈ t1, loopEvent e = true) ∧
        ∀ b', Event.abortEv b' ∉ t1 := by
  intro cs
  induction cs with
  | nil =>
    intro k st htg
    exact ⟨[], by simp [wllamaLoop], by simp [wllamaLoop],
      by simpa [wllamaLoop] using htg, by simp [polls], by simp [polls], by simp,
      by simp⟩
  | cons c cs ih =>
    intro k st htg
    have hstep := @wllamaStep_clean (ext k) (time k) st c (hext k) htg
    have hab : (wllamaStep none (ext k) (time k) st c).2 = false := by rw [hstep]
    obtain ⟨t2, ht2, hsnd, htg2, hplen, hpvals, hl2, hab2⟩ :=
      ih (k + 1) (wllamaStep none (ext k) (time k) st c).1 (by rw [hstep]; simp)
    have hunf : wllamaLoop none ext time k st (c :: cs) =
        wllamaLoop none ext time (k + 1) (wllamaStep none (ext k) (time k) st c).1 cs := by
      simp only [wllamaLoop]
      rw [if_neg (by simp [hab])]
    obtain ⟨t1, ht1, hl1⟩ := wllamaStep_suffix none (ext k) (time k) st c
    have ht1form : t1 = [Event.pollEv st.tg] ++
        (if st.tg = TGState.generating then [] else [Event.setTG TGState.generating]) ++
        (if (rlStep st.rlLast (time k)).2 then [Event.setResponseRL c] else []) := by
      have heq : st.events ++ t1 = (wllamaStep none (ext k) (time k) st c).1.events := ht1.symm
      rw [hstep] at heq
      simp only at heq
      rw [List.append_assoc, List.append_assoc] at heq
      have h3 := List.append_cancel_left heq
      rw [h3, List.append_assoc]
    have hpolls1 : polls t1 = [st.tg] := by
      rw [ht1form]
      by_cases hg : st.tg = TGState.generating <;>
        by_cases hrl : (rlStep st.rlLast (time k)).2 = true <;>
          simp [polls, hg, hrl, pollOf]
    have habort1 : ∀ b', Event.abortEv b' ∉ t1 := by
      intro b'
      rw [ht1form]
      by_cases hg : st.tg = TGState.generating <;>
        by_cases hrl : (rlStep st.rlLast (time k)).2 = true <;>
          simp [hg, hrl]
    refine ⟨t1 ++ t2, ?_, ?_, ?_, ?_, ?_, loopEvents_append hl1 hl2, ?_⟩
    · rw [hunf, ht2, ht1, List.append_assoc]
    · rw [hunf, hsnd]
    · rw [hunf]; exact htg2
    · simp only [polls, List.filterMap_append] at hplen ⊢
      simp only [polls] at hpolls1
      rw [hpolls1]
      simp [hplen]
    · intro v hv
      simp only [polls, List.filterMap_append] at hv
      simp only [polls] at hpolls1 hpvals
      rw [hpolls1] at hv
      rcases List.mem_append.1 hv with h1 | h1
      · have := List.mem_singleton.1 h1
        subst this; exact htg
      · exact hpvals v h1
    · intro b' hb
      rcases List.mem_append.1 hb with h1 | h1
      · exact habort1 b' h1
      · exact hab2 b' h1

theorem wllamaLoop_hit (ext : Nat → Bool) (time : Nat → ℤ) :
    ∀ (cs : List String) (k0 k : Nat) (st : LoopSt),
      ext (k + k0) = true → (∀ j, j < k0 → ext (k + j) = false) →
      st.tg ≠ TGState.interrupted → k0 < cs.length →
      ∃ t1, (wllamaLoop none ext time k st cs).1.events = st.events ++ t1 ∧
        (wllamaLoop none ext time k st cs).2 = true ∧
        (wllamaLoop none ext time k st cs).1.tg = TGState.interrupted ∧
        (polls t1).length = k0 + 1 ∧
        (polls t1).getLast? = some TGState.interrupted ∧
        (∀ v ∈ (polls t1).dropLast, v ≠ TGState.interrupted) ∧
        t1.count (Event.abortEv Backend.wllama) = 1 ∧
        ∀ e ∈ t1, loopEvent e = true := by
  intro cs
  induction cs with
  | nil =>
    intro k0 k st _ _ _ hlen
    exact absurd hlen (by simp)
  | cons c cs ih =>
    intro k0 k st hk0 hbefore htg hlen
    cases k0 with
    | zero =>
      have hk : ext k = true := by simpa using hk0
      have habort : (if ext k then TGState.interrupted else st.tg) = TGState.interrupted := by
        rw [hk]; rfl
      have hstep := @wllamaStep_abort (ext k) (time k) st c habort
      have hunf : wllamaLoop none ext time k st (c :: cs) =
          ((wllamaStep none (ext k) (time k) st c).1, true) := by
        simp only [wllamaLoop]
        rw [if_pos (by rw [hstep])]
      refine ⟨[Event.pollEv TGState.interrupted, Event.abortEv Backend.wllama] ++
        (if (rlStep st.rlLast (time k)).2 then [Event.setResponseRL c] else []),
        ?_, by rw [hunf], by rw [hunf, hstep], ?_, ?_, ?_, ?_, ?_⟩
      · rw [hunf, hstep]
        simp [List.append_assoc]
      · by_cases hrl : (rlStep st.rlLast (time k)).2 = true <;>
          simp [polls, pollOf, hrl]
      · by_cases hrl : (rlStep st.rlLast (time k)).2 = true <;>
          simp [polls, pollOf, hrl]
      · by_cases hrl : (rlStep st.rlLast (time k)).2 = true <;>
          simp [polls, pollOf, hrl]
      · by_cases hrl : (rlStep st.rlLast (time k)).2 = true <;>
          simp [hrl, List.count_append, List.count_cons, List.count_nil, beq_iff_eq]
      · refine loopEvents_append ?_ (loopEvents_ite (loopEvents_single rfl) loopEvents_nil)
        intro e he
        rcases List.mem_cons.1 he with rfl | he
        · rfl
        · rw [List.mem_singleton.1 he]; rfl
    | succ j =>
      have hk : ext k = false := by
        have := hbefore 0 (Nat.succ_pos j)
        simpa using this
      have hstep := @wllamaStep_clean (ext k) (time k) st c hk htg
      have hab : (wllamaStep none (ext k) (time k) st c).2 = false := by rw [hstep]
      have hunf : wllamaLoop none ext time k st (c :: cs) =
          wllamaLoop none ext time (k + 1) (wllamaStep none (ext k) (time k) st c).1 cs := by
        simp only [wllamaLoop]
        rw [if_neg (by simp [hab])]
      have hshift1 : ext (k + 1 + j) = true := by
        have : k + 1 + j = k + (j + 1) := by omega
        rw [this]; exact hk0
      have hshift2 : ∀ i, i < j → ext (k + 1 + i) = false := by
        intro i hi
        have : k + 1 + i = k + (i + 1) := by omega
        rw [this]
        exact hbefore (i + 1) (by omega)
      obtain ⟨t2, ht2, hsnd, htgr, hplen, hplast, hpvals, hcnt, hl2⟩ :=
        ih j (k + 1) (wllamaStep none (ext k) (time k) st c).1 hshift1 hshift2
          (by rw [hstep]; simp) (by simpa using hlen)
      obtain ⟨t1, ht1, hl1⟩ := wllamaStep_suffix none (ext k) (time k) st c
      have ht1form : t1 = [Event.pollEv st.tg] ++
          (if st.tg = TGState.generating then [] else [Event.setTG TGState.generating]) ++
          (if (rlStep st.rlLast (time k)).2 then [Event.setResponseRL c] else []) := by
        have heq : st.events ++ t1 = (wllamaStep none (ext k) (time k) st c).1.events := ht1.symm
        rw [hstep] at heq
        simp only at heq
        rw [List.append_assoc, List.append_assoc] at heq
        have h3 := List.append_cancel_left heq
        rw [h3, List.append_assoc]
      have hpolls1 : polls t1 = [st.tg] := by
        rw [ht1form]
        by_cases hg : st.tg = TGState.generating <;>
          by_cases hrl : (rlStep st.rlLast (time k)).2 = true <;>
            simp [polls, hg, hrl, pollOf]
      have hcnt1 : t1.count (Event.abortEv Backend.wllama) = 0 := by
        rw [ht1form]
        by_cases hg : st.tg = TGState.generating <;>
          by_cases hrl : (rlStep st.rlLast (time k)).2 = true <;>
            simp [hg, hrl, List.count_append, List.count_cons, List.count_nil, beq_iff_eq]
      refine ⟨t1 ++ t2, ?_, ?_, ?_, ?_, ?_, ?_, ?_, loopEvents_append hl1 hl2⟩
      · rw [hunf, ht2, ht1, List.append_assoc]
      · rw [hunf, hsnd]
      · rw [hunf]; exact htgr
      · simp only [polls, List.filterMap_append] at hplen ⊢
        simp only [polls] at hpolls1
        rw [hpolls1]
        simp [hplen]
      · simp only [polls, List.filterMap_append] at hplast ⊢
        simp only [polls] at hpolls1
        rw [hpolls1]
        have hne : List.filterMap pollOf t2 ≠ [] := by
          intro hnil
          have hlen2 : (polls t2).length = j + 1 := hplen
          simp only [polls] at hlen2
          rw [hnil] at hlen2
          simp at hlen2
        rw [List.getLast?_append_of_ne_nil _ hne]
        exact hplast
      · simp only [polls, List.filterMap_append] at hpvals ⊢
        simp only [polls] at hpolls1
        rw [hpolls1]
        have hne : List.filterMap pollOf t2 ≠ [] := by
          intro hnil
          have hlen2 : (polls t2).length = j + 1 := hplen
          simp only [polls] at hlen2
          rw [hnil] at hlen2
          simp at hlen2
        rw [List.dropLast_append_of_ne_nil _ hne]
        intro v hv
        rcases List.mem_append.1 hv with h1 | h1
        · have := List.mem_singleton.1 h1
          subst this; exact htg
        · exact hpvals v h1
      · rw [List.count_append, hcnt1, hcnt]

/-! ### Behaviour of the Wllama loop under arbitrary stop strings -/

/-- A non-interrupted `onNewToken` run with any stop-string configuration:
either no stop string matches (the token is kept and generation continues)
or the first matching stop string fires `abortSignal()`, trims the text, and
stops generation. -/
theorem wllamaStep_cases_clean {ss : Option (List String)} {ext : Bool} {t : ℤ}
    {st : LoopSt} {cur : String} (hext : ext = false)
    (h : st.tg ≠ TGState.interrupted) :
    (wllamaStep ss ext t st cur =
      ({ tg := TGState.generating
         streamed := cur
         rlLast := (rlStep st.rlLast t).1
         events := st.events ++ [Event.pollEv st.tg] ++
           (if st.tg = TGState.generating then [] else [Event.setTG TGState.generating]) ++
           (if (rlStep st.rlLast t).2 then [Event.setResponseRL cur] else []) },
       false)) ∨
    (∃ stop : String, wllamaStep ss ext t st cur =
      ({ tg := TGState.generating
         streamed := dropFromEnd cur stop.length
         rlLast := (rlStep st.rlLast t).1
         events := st.events ++ [Event.pollEv st.tg] ++
           (if st.tg = TGState.generating then [] else [Event.setTG TGState.generating]) ++
           [Event.stopAbortEv] ++
           (if (rlStep st.rlLast t).2 then
             [Event.setResponseRL (dropFromEnd cur stop.length)] else []) },
       true)) := by
  subst hext
  rcases ss with _ | l
  · exact Or.inl (wllamaStep_clean rfl h)
  · rcases hfind : l.find? (fun stop => strIncludes (sliceFromEnd cur (stop.length * 2)) stop)
      with _ | stop
    · left
      by_cases hg : st.tg = TGState.generating <;>
        by_cases hrl : (rlStep st.rlLast t).2 = true <;>
          simp [wllamaStep, h, hg, hrl, hfind, List.append_assoc]
    · right
      refine ⟨stop, ?_⟩
      by_cases hg : st.tg = TGState.generating <;>
        by_cases hrl : (rlStep st.rlLast t).2 = true <;>
          simp [wllamaStep, h, hg, hrl, hfind, List.append_assoc]

/-- An interrupted `onNewToken` run with any stop-string configuration:
`abortSignal()` is invoked from the interruption branch, the stop-string
scan may add its own `abortSignal()` call, and generation stops. -/
theorem wllamaStep_cases_abort {ss : Option (List String)} {ext : Bool} {t : ℤ}
    {st : LoopSt} {cur : String}
    (h : (if ext then TGState.interrupted else st.tg) = TGState.interrupted) :
    ∃ (S : List Event) (msg : String),
      (S = [] ∨ S = [Event.stopAbortEv]) ∧
      wllamaStep ss ext t st cur =
        ({ tg := TGState.interrupted
           streamed := msg
           rlLast := (rlStep st.rlLast t).1
           events := st.events ++
             [Event.pollEv TGState.interrupted, Event.abortEv Backend.wllama] ++ S ++
             (if (rlStep st.rlLast t).2 then [Event.setResponseRL msg] else []) },
         true) := by
  rcases ss with _ | l
  · refine ⟨[], cur, Or.inl rfl, ?_⟩
    by_cases hrl : (rlStep st.rlLast t).2 = true <;>
      simp [wllamaStep, h, hrl, List.append_assoc]
  · rcases hfind : l.find? (fun stop => strIncludes (sliceFromEnd cur (stop.length * 2)) stop)
      with _ | stop
    · refine ⟨[], cur, Or.inl rfl, ?_⟩
      by_cases hrl : (rlStep st.rlLast t).2 = true <;>
        simp [wllamaStep, h, hrl, hfind, List.append_assoc]
    · refine ⟨[Event.stopAbortEv], dropFromEnd cur stop.length, Or.inr rfl, ?_⟩
      by_cases hrl : (rlStep st.rlLast t).2 = true <;>
        simp [wllamaStep, h, hrl, hfind, List.append_assoc]

/-- The Wllama token loop with any stop-string configuration when the
external interruption flag is never raised: every poll observes a
non-interrupted state, the interruption-branch `abortSignal()` never runs,
every delivered token is polled unless a stop string ends generation first,
and a cancelled run was cancelled by a stop string. -/
theorem wllamaLoop_noext (ss : Option (List String)) (ext : Nat → Bool)
    (time : Nat → ℤ) (hext : ∀ j, ext j = false) :
    ∀ (cs : List String) (k : Nat) (st : LoopSt),
      st.tg ≠ TGState.interrupted →
      ∃ t1, (wllamaLoop ss ext time k st cs).1.events = st.events ++ t1 ∧
        (∀ v ∈ polls t1, v ≠ TGState.interrupted) ∧
        (∀ b', Event.abortEv b' ∉ t1) ∧
        ((wllamaLoop ss ext time k st cs).2 = false → (polls t1).length = cs.length) ∧
        ((wllamaLoop ss ext time k st cs).2 = true →
           Event.stopAbortEv ∈ t1 ∧ (polls t1).length ≤ cs.length) := by
  intro cs
  induction cs with
  | nil =>
    intro k st htg
    refine ⟨[], by simp [wllamaLoop], by simp [polls], by simp, ?_, ?_⟩
    · intro
      simp [polls]
    · intro hc
      simp [wllamaLoop] at hc
  | cons c cs ih =>
    intro k st htg
    rcases @wllamaStep_cases_clean ss (ext k) (time k) st c (hext k) htg with
      hstep | ⟨stop, hstep⟩
    · have hab : (wllamaStep ss (ext k) (time k) st c).2 = false := by rw [hstep]
      have hunf : wllamaLoop ss ext time k st (c :: cs) =
          wllamaLoop ss ext time (k + 1) (wllamaStep ss (ext k) (time k) st c).1 cs := by
        simp only [wllamaLoop]
        rw [if_neg (by simp [hab])]
      obtain ⟨t2, ht2, hpv2, hab2, hlen2, hstop2⟩ :=
        ih (k + 1) (wllamaStep ss (ext k) (time k) st c).1 (by rw [hstep]; simp)
      have hev1 : (wllamaStep ss (ext k) (time k) st c).1.events =
          st.events ++ ([Event.pollEv st.tg] ++
            (if st.tg = TGState.generating then [] else [Event.setTG TGState.generating]) ++
            (if (rlStep st.rlLast (time k)).2 then [Event.setResponseRL c] else [])) := by
        rw [hstep]
        simp [List.append_assoc]
      have hpolls1 : polls ([Event.pollEv st.tg] ++
          (if st.tg = TGState.generating then [] else [Event.setTG TGState.generating]) ++
          (if (rlStep st.rlLast (time k)).2 then [Event.setResponseRL c] else [])) =
          [st.tg] := by
        by_cases hg : st.tg = TGState.generating <;>
          by_cases hrl : (rlStep st.rlLast (time k)).2 = true <;>
            simp [polls, hg, hrl, pollOf]
      have habort1 : ∀ b', Event.abortEv b' ∉ ([Event.pollEv st.tg] ++
          (if st.tg = TGState.generating then [] else [Event.setTG TGState.generating]) ++
          (if (rlStep st.rlLast (time k)).2 then [Event.setResponseRL c] else [])) := by
        intro b'
        by_cases hg : st.tg = TGState.generating <;>
          by_cases hrl : (rlStep st.rlLast (time k)).2 = true <;>
            simp [hg, hrl]
      have hstop1 : Event.stopAbortEv ∉ ([Event.pollEv st.tg] ++
          (if st.tg = TGState.generating then [] else [Event.setTG TGState.generating]) ++
          (if (rlStep st.rlLast (time k)).2 then [Event.setResponseRL c] else [])) := by
        by_cases hg : st.tg = TGState.generating <;>
          by_cases hrl : (rlStep st.rlLast (time k)).2 = true <;>
            simp [hg, hrl]
      refine ⟨([Event.pollEv st.tg] ++
        (if st.tg = TGState.generating then [] else [Event.setTG TGState.generating]) ++
        (if (rlStep st.rlLast (time k)).2 then [Event.setResponseRL c] else [])) ++ t2, ?_, ?_, ?_, ?_, ?_⟩
      · rw [hunf, ht2, hev1, List.append_assoc]
      · intro v hv
        rw [polls, List.filterMap_append] at hv
        rcases List.mem_append.1 hv with h1 | h1
        · rw [show List.filterMap pollOf _ = [st.tg] from hpolls1] at h1
          rw [List.mem_singleton.1 h1]
          exact htg
        · exact hpv2 v h1
      · intro b' hb
        rcases List.mem_append.1 hb with h1 | h1
        · exact habort1 b' h1
        · exact hab2 b' h1
      · intro hsnd
        rw [hunf] at hsnd
        rw [polls, List.filterMap_append,
          show List.filterMap pollOf _ = [st.tg] from hpolls1]
        have := hlen2 hsnd
        rw [polls] at this
        simp [this]
      · intro hsnd
        rw [hunf] at hsnd
        obtain ⟨hmem, hle⟩ := hstop2 hsnd
        refine ⟨List.mem_append.2 (Or.inr hmem), ?_⟩
        rw [polls, List.filterMap_append,
          show List.filterMap pollOf _ = [st.tg] from hpolls1]
        rw [polls] at hle
        simp only [List.length_append, List.length_singleton, List.length_cons,
          List.length_nil]
        omega
    · have hab : (wllamaStep ss (ext k) (time k) st c).2 = true := by rw [hstep]
      have hunf : wllamaLoop ss ext time k st (c :: cs) =
          ((wllamaStep ss (ext k) (time k) st c).1, true) := by
        simp only [wllamaLoop]
        rw [if_pos hab]
      refine ⟨[Event.pollEv st.tg] ++
        (if st.tg = TGState.generating then [] else [Event.setTG TGState.generating]) ++
        [Event.stopAbortEv] ++
        (if (rlStep st.rlLast (time k)).2 then
          [Event.setResponseRL (dropFromEnd c stop.length)] else []), ?_, ?_, ?_, ?_, ?_⟩
      · rw [hunf, hstep]
        simp [List.append_assoc]
      · intro v hv
        by_cases hg : st.tg = TGState.generating <;>
          by_cases hrl : (rlStep st.rlLast (time k)).2 = true <;>
            simp [polls, hg, hrl, pollOf] at hv <;>
              (subst hv
               first
               | exact htg
               | exact fun hcon => TGState.noConfusion hcon)
      · intro b' hb
        by_cases hg : st.tg = TGState.generating <;>
          by_cases hrl : (rlStep st.rlLast (time k)).2 = true <;>
            simp [hg, hrl] at hb
      · intro hsnd
        rw [hunf] at hsnd
        simp at hsnd
      · intro
        constructor
        · by_cases hg : st.tg = TGState.generating <;>
            by_cases hrl : (rlStep st.rlLast (time k)).2 = true <;>
              simp [hg, hrl]
        · by_cases hg : st.tg = TGState.generating <;>
            by_cases hrl : (rlStep st.rlLast (time k)).2 = true <;>
              (simp [polls, hg, hrl, pollOf] <;> omega)

/-- The Wllama token loop with any stop-string configuration when the
external interruption flag is first raised before token `k0 < |cs|`:
generation is always cancelled, and either the stream reached token `k0` —
its poll observes `"interrupted"` (no earlier poll does) and the
interruption-branch `abortSignal()` runs exactly once, exactly there — or a
stop string ended generation strictly earlier, in which case the flag is
never observed (no further token is delivered) and the interruption
`abortSignal()` never runs. -/
theorem wllamaLoop_hit_general (ss : Option (List String)) (ext : Nat → Bool)
    (time : Nat → ℤ) :
    ∀ (cs : List String) (k0 k : Nat) (st : LoopSt),
      ext (k + k0) = true → (∀ j, j < k0 → ext (k + j) = false) →
      st.tg ≠ TGState.interrupted → k0 < cs.length →
      ∃ t1, (wllamaLoop ss ext time k st cs).1.events = st.events ++ t1 ∧
        (wllamaLoop ss ext time k st cs).2 = true ∧
        ((((polls t1).length = k0 + 1 ∧
           (polls t1).getLast? = some TGState.interrupted ∧
           (∀ v ∈ (polls t1).dropLast, v ≠ TGState.interrupted) ∧
           t1.count (Event.abortEv Backend.wllama) = 1)) ∨
         (Event.stopAbortEv ∈ t1 ∧ (polls t1).length ≤ k0 ∧
          t1.count (Event.abortEv Backend.wllama) = 0 ∧
          ∀ v ∈ polls t1, v ≠ TGState.interrupted)) := by
  intro cs
  induction cs with
  | nil =>
    intro k0 k st _ _ _ hlen
    exact absurd hlen (by simp)
  | cons c cs ih =>
    intro k0 k st hk0 hbefore htg hlen
    cases k0 with
    | zero =>
      have hk : ext k = true := by simpa using hk0
      obtain ⟨S, msg, hS, hstep⟩ :=
        @wllamaStep_cases_abort ss (ext k) (time k) st c (by rw [hk]; rfl)
      have hab : (wllamaStep ss (ext k) (time k) st c).2 = true := by rw [hstep]
      have hunf : wllamaLoop ss ext time k st (c :: cs) =
          ((wllamaStep ss (ext k) (time k) st c).1, true) := by
        simp only [wllamaLoop]
        rw [if_pos hab]
      refine ⟨[Event.pollEv TGState.interrupted, Event.abortEv Backend.wllama] ++ S ++
        (if (rlStep st.rlLast (time k)).2 then [Event.setResponseRL msg] else []),
        ?_, by rw [hunf], Or.inl ⟨?_, ?_, ?_, ?_⟩⟩
      · rw [hunf, hstep]
        simp [List.append_assoc]
      · rcases hS with rfl | rfl <;>
          by_cases hrl : (rlStep st.rlLast (time k)).2 = true <;>
            simp [polls, pollOf, hrl]
      · rcases hS with rfl | rfl <;>
          by_cases hrl : (rlStep st.rlLast (time k)).2 = true <;>
            simp [polls, pollOf, hrl]
      · rcases hS with rfl | rfl <;>
          by_cases hrl : (rlStep st.rlLast (time k)).2 = true <;>
            simp [polls, pollOf, hrl]
      · rcases hS with rfl | rfl <;>
          by_cases hrl : (rlStep st.rlLast (time k)).2 = true <;>
            simp [hrl, List.count_append, List.count_cons, List.count_nil, beq_iff_eq]
    | succ j =>
      have hk : ext k = false := by
        have := hbefore 0 (Nat.succ_pos j)
        simpa using this
      rcases @wllamaStep_cases_clean ss (ext k) (time k) st c hk htg with
        hstep | ⟨stop, hstep⟩
      · have hab : (wllamaStep ss (ext k) (time k) st c).2 = false := by rw [hstep]
        have hunf : wllamaLoop ss ext time k st (c :: cs) =
            wllamaLoop ss ext time (k + 1) (wllamaStep ss (ext k) (time k) st c).1 cs := by
          simp only [wllamaLoop]
          rw [if_neg (by simp [hab])]
        have hshift1 : ext (k + 1 + j) = true := by
          have h12 : k + 1 + j = k + (j + 1) := by omega
          rw [h12]; exact hk0
        have hshift2 : ∀ i, i < j → ext (k + 1 + i) = false := by
          intro i hi
          have h12 : k + 1 + i = k + (i + 1) := by omega
          rw [h12]
          exact hbefore (i + 1) (by omega)
        obtain ⟨t2, ht2, hsnd, hdisj⟩ :=
          ih j (k + 1) (wllamaStep ss (ext k) (time k) st c).1 hshift1 hshift2
            (by rw [hstep]; simp) (by simpa using hlen)
        have hev1 : (wllamaStep ss (ext k) (time k) st c).1.events =
            st.events ++ ([Event.pollEv st.tg] ++
              (if st.tg = TGState.generating then [] else [Event.setTG TGState.generating]) ++
              (if (rlStep st.rlLast (time k)).2 then [Event.setResponseRL c] else [])) := by
          rw [hstep]
          simp [List.append_assoc]
        have hpolls1 : polls ([Event.pollEv st.tg] ++
            (if st.tg = TGState.generating then [] else [Event.setTG TGState.generating]) ++
            (if (rlStep st.rlLast (time k)).2 then [Event.setResponseRL c] else [])) =
            [st.tg] := by
          by_cases hg : st.tg = TGState.generating <;>
            by_cases hrl : (rlStep st.rlLast (time k)).2 = true <;>
              simp [polls, hg, hrl, pollOf]
        have hcnt1 : ([Event.pollEv st.tg] ++
            (if st.tg = TGState.generating then [] else [Event.setTG TGState.generating]) ++
            (if (rlStep st.rlLast (time k)).2 then
              [Event.setResponseRL c] else [])).count (Event.abortEv Backend.wllama) = 0 := by
          by_cases hg : st.tg = TGState.generating <;>
            by_cases hrl : (rlStep st.rlLast (time k)).2 = true <;>
              simp [hg, hrl, List.count_append, List.count_cons, List.count_nil, beq_iff_eq]
        refine ⟨([Event.pollEv st.tg] ++
        (if st.tg = TGState.generating then [] else [Event.setTG TGState.generating]) ++
        (if (rlStep st.rlLast (time k)).2 then [Event.setResponseRL c] else [])) ++ t2, ?_, ?_, ?_⟩
        · rw [hunf, ht2, hev1, List.append_assoc]
        · rw [hunf, hsnd]
        · rcases hdisj with ⟨hplen, hplast, hpvals, hcnt⟩ | ⟨hmem, hple, hcnt, hpvals⟩
          · left
            have hne : List.filterMap pollOf t2 ≠ [] := by
              intro hnil
              rw [polls, hnil] at hplen
              simp at hplen
            refine ⟨?_, ?_, ?_, ?_⟩
            · rw [polls, List.filterMap_append,
                show List.filterMap pollOf _ = [st.tg] from hpolls1]
              rw [polls] at hplen
              simp [hplen]
            · rw [polls, List.filterMap_append,
                show List.filterMap pollOf _ = [st.tg] from hpolls1]
              rw [List.getLast?_append_of_ne_nil _ hne]
              rw [polls] at hplast
              exact hplast
            · rw [polls, List.filterMap_append,
                show List.filterMap pollOf _ = [st.tg] from hpolls1]
              rw [List.dropLast_append_of_ne_nil _ hne]
              intro v hv
              rcases List.mem_append.1 hv with h1 | h1
              · rw [List.mem_singleton.1 h1]
                exact htg
              · rw [polls] at hpvals
                exact hpvals v h1
            · rw [List.count_append, hcnt1, hcnt]
          · right
            refine ⟨List.mem_append.2 (Or.inr hmem), ?_, ?_, ?_⟩
            · rw [polls, List.filterMap_append,
                show List.filterMap pollOf _ = [st.tg] from hpolls1]
              rw [polls] at hple
              simp only [List.length_append, List.length_singleton, List.length_cons,
                List.length_nil]
              omega
            · rw [List.count_append, hcnt1, hcnt]
            · intro v hv
              rw [polls, List.filterMap_append] at hv
              rcases List.mem_append.1 hv with h1 | h1
              · rw [show List.filterMap pollOf _ = [st.tg] from hpolls1] at h1
                rw [List.mem_singleton.1 h1]
                exact htg
              · rw [polls] at hpvals
                exact hpvals v h1
      · have hab : (wllamaStep ss (ext k) (time k) st c).2 = true := by rw [hstep]
        have hunf : wllamaLoop ss ext time k st (c :: cs) =
            ((wllamaStep ss (ext k) (time k) st c).1, true) := by
          simp only [wllamaLoop]
          rw [if_pos hab]
        refine ⟨[Event.pollEv st.tg] ++
          (if st.tg = TGState.generating then [] else [Event.setTG TGState.generating]) ++
          [Event.stopAbortEv] ++
          (if (rlStep st.rlLast (time k)).2 then
            [Event.setResponseRL (dropFromEnd c stop.length)] else []),
          ?_, by rw [hunf], Or.inr ⟨?_, ?_, ?_, ?_⟩⟩
        · rw [hunf, hstep]
          simp [List.append_assoc]
        · by_cases hg : st.tg = TGState.generating <;>
            by_cases hrl : (rlStep st.rlLast (time k)).2 = true <;>
              simp [hg, hrl]
        · by_cases hg : st.tg = TGState.generating <;>
            by_cases hrl : (rlStep st.rlLast (time k)).2 = true <;>
              (simp [polls, hg, hrl, pollOf] <;> omega)
        · by_cases hg : st.tg = TGState.generating <;>
            by_cases hrl : (rlStep st.rlLast (time k)).2 = true <;>
              simp [hg, hrl, List.count_append, List.count_cons, List.count_nil, beq_iff_eq]
        · intro v hv
          by_cases hg : st.tg = TGState.generating <;>
            by_cases hrl : (rlStep st.rlLast (time k)).2 = true <;>
              simp [polls, hg, hrl, pollOf] at hv <;>
                (subst hv
                 first
                 | exact htg
                 | exact fun hcon => TGState.noConfusion hcon)

/-! ### Events emitted by the backend runners -/

theorem canStartRespondingEv_backendEv (settings : Settings) :
    ∀ e ∈ canStartRespondingEv settings, backendEv e = true := by
  unfold canStartRespondingEv
  split
  · intro e he
    rcases List.mem_cons.1 he with rfl | he
    · decide
    · rw [List.mem_singleton.1 he]; decide
  · simp

theorem promptCallEvents_backendEv (b : Backend) :
    ∀ e ∈ [Event.setTG TGState.preparingToGenerate, Event.completionCall b],
      backendEv e = true := by
  intro e he
  rcases List.mem_cons.1 he with rfl | he
  · decide
  · rw [List.mem_singleton.1 he]; rfl

theorem generateTextWithOpenAI_events (env : Env) (s : Sys) :
    ∀ e ∈ (generateTextWithOpenAI env s).events, backendEv e = true := by
  have hpre : ∀ e ∈ canStartRespondingEv env.settings ++
      [Event.setTG TGState.preparingToGenerate, Event.completionCall Backend.openAi],
      backendEv e = true := by
    intro e he
    rcases List.mem_append.1 he with h1 | h1
    · exact canStartRespondingEv_backendEv _ e h1
    · exact promptCallEvents_backendEv _ e h1
  obtain ⟨t1, ht1, hl1⟩ := streamLoop_suffix Backend.openAi env.openAiExt env.openAiTime
    (effChunks env.openAiChunks env.openAiErrAfter) 0
    { tg := TGState.preparingToGenerate, streamed := "", rlLast := s.rlLast
      events := canStartRespondingEv env.settings ++
        [Event.setTG TGState.preparingToGenerate, Event.completionCall Backend.openAi] }
  simp only at ht1
  by_cases hc : env.openAiCreateThrows = true
  · simp only [generateTextWithOpenAI, hc, if_true]
    exact hpre
  · simp only [generateTextWithOpenAI, hc, Bool.false_eq_true, if_false]
    by_cases h2 : (!(streamLoop Backend.openAi env.openAiExt env.openAiTime 0
        { tg := TGState.preparingToGenerate, streamed := "", rlLast := s.rlLast
          events := canStartRespondingEv env.settings ++
            [Event.setTG TGState.preparingToGenerate,
             Event.completionCall Backend.openAi] }
        (effChunks env.openAiChunks env.openAiErrAfter)).2 &&
        streamThrowsAt env.openAiChunks env.openAiErrAfter) = true
    · rw [if_pos h2]
      intro e he
      simp only at he
      rw [ht1] at he
      rcases List.mem_append.1 he with h1 | h1
      · exact hpre e h1
      · exact loopEvent_backendEv (hl1 e h1)
    · rw [if_neg h2]
      intro e he
      simp only at he
      rw [ht1] at he
      rcases List.mem_append.1 he with h1 | h1
      · rcases List.mem_append.1 h1 with h3 | h3
        · exact hpre e h3
        · exact loopEvent_backendEv (hl1 e h3)
      · rw [List.mem_singleton.1 h1]; rfl

theorem generateTextWithWebLlm_events (env : Env) (s : Sys) :
    ∀ e ∈ (generateTextWithWebLlm env s).events, backendEv e = true := by
  have hcached : ∀ e ∈ (if env.webLlmCached then
      [Event.setTG TGState.preparingToGenerate] else []), backendEv e = true := by
    split
    · intro e he
      rw [List.mem_singleton.1 he]; decide
    · simp
  have hpre : ∀ e ∈ (if env.webLlmCached then
        [Event.setTG TGState.preparingToGenerate] else []) ++
      canStartRespondingEv env.settings ++
      [Event.setTG TGState.preparingToGenerate, Event.completionCall Backend.webLlm],
      backendEv e = true := by
    intro e he
    rcases List.mem_append.1 he with h1 | h1
    · rcases List.mem_append.1 h1 with h3 | h3
      · exact hcached e h3
      · exact canStartRespondingEv_backendEv _ e h3
    · exact promptCallEvents_backendEv _ e h1
  obtain ⟨t1, ht1, hl1⟩ := streamLoop_suffix Backend.webLlm env.webLlmExt env.webLlmTime
    (effChunks env.webLlmChunks env.webLlmErrAfter) 0
    { tg := TGState.preparingToGenerate, streamed := "", rlLast := s.rlLast
      events := (if env.webLlmCached then
          [Event.setTG TGState.preparingToGenerate] else []) ++
        canStartRespondingEv env.settings ++
        [Event.setTG TGState.preparingToGenerate, Event.completionCall Backend.webLlm] }
  simp only at ht1
  by_cases hp : env.webLlmPreThrows = true
  · simp only [generateTextWithWebLlm, hp, if_true]
    simp
  · simp only [generateTextWithWebLlm, hp, Bool.false_eq_true, if_false]
    by_cases he1 : env.webLlmEngineThrows = true
    · rw [if_pos he1]
      exact hcached
    · rw [if_neg he1]
      by_cases hai : env.settings.enableAiResponse = true
      · rw [if_pos hai]
        by_cases hc : env.webLlmCreateThrows = true
        · rw [if_pos hc]
          exact hpre
        · rw [if_neg hc]
          by_cases h2 : (!(streamLoop Backend.webLlm env.webLlmExt env.webLlmTime 0
              { tg := TGState.preparingToGenerate, streamed := "", rlLast := s.rlLast
                events := (if env.webLlmCached then
                    [Event.setTG TGState.preparingToGenerate] else []) ++
                  canStartRespondingEv env.settings ++
                  [Event.setTG TGState.preparingToGenerate,
                   Event.completionCall Backend.webLlm] }
              (effChunks env.webLlmChunks env.webLlmErrAfter)).2 &&
              streamThrowsAt env.webLlmChunks env.webLlmErrAfter) = true
          · rw [if_pos h2]
            intro e he
            simp only at he
            rw [ht1] at he
            rcases List.mem_append.1 he with h1 | h1
            · exact hpre e h1
            · exact loopEvent_backendEv (hl1 e h1)
          · rw [if_neg h2]
            intro e he
            simp only at he
            rw [ht1] at he
            rcases List.mem_append.1 he with h1 | h1
            · rcases List.mem_append.1 h1 with h3 | h3
              · exact hpre e h3
              · exact loopEvent_backendEv (hl1 e h3)
            · rw [List.mem_singleton.1 h1]; rfl
      · rw [if_neg hai]
        exact hcached

theorem generateTextWithWllama_events (env : Env) (s : Sys) :
    ∀ e ∈ (generateTextWithWllama env s).events, backendEv e = true := by
  have hpre : ∀ e ∈ canStartRespondingEv env.settings ++
      [Event.setTG TGState.preparingToGenerate, Event.completionCall Backend.wllama],
      backendEv e = true := by
    intro e he
    rcases List.mem_append.1 he with h1 | h1
    · exact canStartRespondingEv_backendEv _ e h1
    · exact promptCallEvents_backendEv _ e h1
  obtain ⟨t1, ht1, hl1⟩ := wllamaLoop_suffix env.wllamaStopStrings env.wllamaExt
    env.wllamaTime env.wllamaTokens 0
    { tg := TGState.preparingToGenerate, streamed := "", rlLast := s.rlLast
      events := canStartRespondingEv env.settings ++
        [Event.setTG TGState.preparingToGenerate, Event.completionCall Backend.wllama] }
  simp only at ht1
  by_cases hi : env.wllamaInitThrows = true
  · simp only [generateTextWithWllama, hi, if_true]
    simp
  · simp only [generateTextWithWllama, hi, Bool.false_eq_true, if_false]
    by_cases hai : env.settings.enableAiResponse = true
    · rw [if_pos hai]
      by_cases hc : env.wllamaCreateThrows = true
      · rw [if_pos hc]
        exact hpre
      · rw [if_neg hc]
        intro e he
        simp only at he
        rw [ht1] at he
        rcases List.mem_append.1 he with h1 | h1
        · rcases List.mem_append.1 h1 with h3 | h3
          · exact hpre e h3
          · exact loopEvent_backendEv (hl1 e h3)
        · rw [List.mem_singleton.1 h1]; rfl
    · rw [if_neg hai]
      simp

/-! ### Events emitted by the backend-dispatch phase -/

theorem allEv_append {P : Event → Bool} {l1 l2 : List Event}
    (h1 : ∀ e ∈ l1, P e = true) (h2 : ∀ e ∈ l2, P e = true) :
    ∀ e ∈ l1 ++ l2, P e = true := by
  intro e he
  rcases List.mem_append.1 he with h | h
  · exact h1 e h
  · exact h2 e h

theorem invocations_append (l1 l2 : List Event) :
    invocations (l1 ++ l2) = invocations l1 ++ invocations l2 :=
  List.filterMap_append l1 l2 invokeOf

theorem tgWrites_append (l1 l2 : List Event) :
    tgWrites (l1 ++ l2) = tgWrites l1 ++ tgWrites l2 :=
  List.filterMap_append l1 l2 tgOf

theorem dispatchBackends_suffix (env : Env) (s : Sys) :
    ∃ t, (dispatchBackends env s).1.events = s.events ++ t ∧
      ∀ e ∈ t, midEv e = true := by
  unfold dispatchBackends runBackend
  by_cases hone : (env.settings.inferenceType == "openai") = true
  · rw [if_pos hone]
    refine ⟨[Event.invoke Backend.openAi] ++
      (generateTextWithOpenAI env (emit s (Event.invoke Backend.openAi))).events, ?_, ?_⟩
    · simp [emit, List.append_assoc]
    · refine allEv_append ?_ ?_
      · intro e he
        rw [List.mem_singleton.1 he]; rfl
      · intro e he
        exact backendEv_midEv (generateTextWithOpenAI_events env _ e he)
  · rw [if_neg hone]
    by_cases hguard : (!env.isWebGPUAvailable || !env.settings.enableWebGpu) = true
    · rw [if_pos hguard]
      simp only [if_true]
      refine ⟨[Event.logSkipWebLlm, Event.invoke Backend.wllama] ++
        (generateTextWithWllama env
          (emit (emit s Event.logSkipWebLlm) (Event.invoke Backend.wllama))).events, ?_, ?_⟩
      · simp [emit, List.append_assoc]
      · refine allEv_append ?_ ?_
        · intro e he
          rcases List.mem_cons.1 he with rfl | he
          · rfl
          · rw [List.mem_singleton.1 he]; rfl
        · intro e he
          exact backendEv_midEv (generateTextWithWllama_events env _ e he)
    · rw [if_neg hguard]
      by_cases hthrow : (generateTextWithWebLlm env
          (emit s (Event.invoke Backend.webLlm))).throws = true
      · simp only [hthrow, if_true]
        refine ⟨[Event.invoke Backend.webLlm] ++
          (generateTextWithWebLlm env (emit s (Event.invoke Backend.webLlm))).events ++
          [Event.logSkipWebLlm, Event.invoke Backend.wllama] ++
          (generateTextWithWllama env (emit (emit
            { tgState := (generateTextWithWebLlm env (emit s (Event.invoke Backend.webLlm))).tg
              rlLast := (generateTextWithWebLlm env (emit s (Event.invoke Backend.webLlm))).rlLast
              events := (emit s (Event.invoke Backend.webLlm)).events ++
                (generateTextWithWebLlm env (emit s (Event.invoke Backend.webLlm))).events }
            Event.logSkipWebLlm) (Event.invoke Backend.wllama))).events, ?_, ?_⟩
        · simp [emit, List.append_assoc]
        · refine allEv_append (allEv_append (allEv_append ?_ ?_) ?_) ?_
          · intro e he
            rw [List.mem_singleton.1 he]; rfl
          · intro e he
            exact backendEv_midEv (generateTextWithWebLlm_events env _ e he)
          · intro e he
            rcases List.mem_cons.1 he with rfl | he
            · rfl
            · rw [List.mem_singleton.1 he]; rfl
          · intro e he
            exact backendEv_midEv (generateTextWithWllama_events env _ e he)
      · simp only [if_neg hthrow]
        refine ⟨[Event.invoke Backend.webLlm] ++
          (generateTextWithWebLlm env (emit s (Event.invoke Backend.webLlm))).events, ?_, ?_⟩
        · simp [emit, List.append_assoc]
        · refine allEv_append ?_ ?_
          · intro e he
            rw [List.mem_singleton.1 he]; rfl
          · intro e he
            exact backendEv_midEv (generateTextWithWebLlm_events env _ e he)

/-! ### Claim theorems -/

theorem rl_aux (ts : List ℤ) : ∀ lastUpdateTime : ℤ,
    (∀ u ∈ forwardedTimes lastUpdateTime ts,
       updateInterval ≤ (u : ℚ) - (lastUpdateTime : ℚ)) ∧
    (forwardedTimes lastUpdateTime ts).Pairwise
      (fun (a b : ℤ) => updateInterval ≤ (b : ℚ) - (a : ℚ)) := by
  induction ts with
  | nil =>
    intro last
    constructor <;> simp [forwardedTimes, rlRun]
  | cons t ts ih =>
    intro last
    by_cases h : updateInterval ≤ (t : ℚ) - (last : ℚ)
    · have h3 : 1000 ≤ 12 * (t - last) := (rlStep_cond last t).2 h
      have hstep : rlStep last t = (t, true) := by simp [rlStep, h3]
      have hft : forwardedTimes last (t :: ts) = t :: forwardedTimes t ts := by
        simp [forwardedTimes, rlRun, hstep]
      obtain ⟨ih1, ih2⟩ := ih t
      have hpos : (0 : ℚ) ≤ updateInterval := by norm_num [updateInterval]
      refine ⟨?_, ?_⟩
      · intro u hu
        rw [hft] at hu
        rcases List.mem_cons.1 hu with rfl | hu
        · exact h
        · have h2 := ih1 u hu
          linarith
      · rw [hft]
        exact List.Pairwise.cons ih1 ih2
    · have h3 : ¬ 1000 ≤ 12 * (t - last) := fun hc => h ((rlStep_cond last t).1 hc)
      have hstep : rlStep last t = (last, false) := by simp [rlStep, h3]
      have hft : forwardedTimes last (t :: ts) = forwardedTimes last ts := by
        simp [forwardedTimes, rlRun, hstep]
      rw [hft]
      exact ih last

/-- C3: the response text is forwarded to the UI update sink no more than
about 12 times per second — for any initial `lastUpdateTime` and any sequence
of call times of `updateResponseRateLimited`, any two calls that actually
forwarded are separated by at least `1000 / 12` milliseconds. -/
theorem C3_rate_limited_updates (lastUpdateTime : ℤ) (ts : List ℤ) :
    (forwardedTimes lastUpdateTime ts).Pairwise
      (fun (a b : ℤ) => updateInterval ≤ (b : ℚ) - (a : ℚ)) :=
  (rl_aux ts lastUpdateTime).2

/-- C8: `startSearch` issues the search with the raw query when its length is
at most 2000 characters and with at most 20 extracted keywords otherwise;
when the first search returns zero text results it performs exactly one retry
with at most 10 extracted keywords; the final search state is `failed` if and
only if the final text-result list is empty. -/
theorem C8_search_and_retry (env : SearchEnv) (query : String) :
    (query.length ≤ 2000 → firstSearchQuery env query = query) ∧
    (2000 < query.length →
       firstSearchQuery env query =
         String.intercalate " " ((env.extract query).take 20)) ∧
    (startSearch env query).queries.head? = some (firstSearchQuery env query) ∧
    ((env.searchFn (firstSearchQuery env query) 30).textResults = [] →
       (startSearch env query).queries =
         [firstSearchQuery env query,
          String.intercalate " " ((env.extract query).take 10)]) ∧
    ((env.searchFn (firstSearchQuery env query) 30).textResults ≠ [] →
       (startSearch env query).queries = [firstSearchQuery env query]) ∧
    ((startSearch env query).finalState = SearchState.failed ↔
       (startSearch env query).results.textResults = []) := by
  refine ⟨?_, ?_, ?_, ?_, ?_, ?_⟩
  · intro h
    unfold firstSearchQuery
    rw [if_neg (by omega)]
  · intro h
    unfold firstSearchQuery getKeywords
    rw [if_pos (by omega)]
  · simp only [startSearch]
    by_cases h : (env.searchFn (firstSearchQuery env query) 30).textResults.length = 0 <;>
      simp [h]
  · intro h
    have h0 : (env.searchFn (firstSearchQuery env query) 30).textResults.length = 0 := by
      simp [h]
    simp [startSearch, getKeywords, h0]
  · intro h
    have h0 : ¬ (env.searchFn (firstSearchQuery env query) 30).textResults.length = 0 := by
      simpa [List.length_eq_zero] using h
    simp [startSearch, h0]
  · simp only [startSearch, getKeywords]
    by_cases h : (env.searchFn (firstSearchQuery env query) 30).textResults.length = 0
    · simp only [h, if_pos rfl, if_true]
      by_cases h2 : (env.searchFn
          (String.intercalate " " ((env.extract query).take 10)) 30).textResults.length = 0
      · simp [h, h2, List.length_eq_zero.1 h2]
      · have h3 : (env.searchFn
            (String.intercalate " " ((env.extract query).take 10)) 30).textResults ≠ [] := by
          intro hh
          exact h2 (by simp [hh])
        simp [h, h2, h3]
    · have h3 : (env.searchFn (firstSearchQuery env query) 30).textResults ≠ [] := by
        intro hh
        exact h (by simp [hh])
      simp [h, h3]

/-- Witness for C8 at a concrete environment: a two-word query whose first
search is empty, so one retry with 10 keywords runs and succeeds. -/
theorem C8_search_and_retry_witness :
    (startSearch ⟨fun _ => ["k1", "k2", "k3"],
        fun q _ => if q = "q" then ⟨[], []⟩ else ⟨[("t", "s", "u")], []⟩⟩ "q").queries =
      ["q", "k1 k2 k3"] ∧
    ((startSearch ⟨fun _ => ["k1", "k2", "k3"],
        fun q _ => if q = "q" then ⟨[], []⟩ else ⟨[("t", "s", "u")], []⟩⟩ "q").finalState =
      SearchState.failed ↔ False) := by
  have h := C8_search_and_retry
    ⟨fun _ => ["k1", "k2", "k3"],
     fun q _ => if q = "q" then ⟨[], []⟩ else ⟨[("t", "s", "u")], []⟩⟩ "q"
  refine ⟨?_, ?_⟩
  · have h1 := h.1 (by decide)
    have h4 := h.2.2.2.1 (by rw [h1]; decide)
    rw [h4]
    decide
  · rw [h.2.2.2.2.2]
    decide

/-- C10 counterexample: with one text result but `searchResultsToConsider = 0`
the function returns `"None."`, not the claimed newline-joined formatting of
"at most searchResultsToConsider results" (which would be the empty join). -/
theorem C10_counterexample :
    getFormattedSearchResults true [("t", "s", "u")] 0 = "None." ∧
    ([("t", "s", "u")] : List TextResult) ≠ [] ∧
    "None." ≠ String.intercalate "\n"
      ((([("t", "s", "u")] : List TextResult).take 0).enum.map fun p => urlLine p.1 p.2) := by
  refine ⟨by decide, by decide, by decide⟩

/-- C10 amended: `getFormattedSearchResults` returns `"None."` exactly when
the text-result list truncated to `searchResultsToConsider` is empty (no text
results, or `searchResultsToConsider = 0`); otherwise it formats the at most
`searchResultsToConsider` retained results as a newline-joined list numbered
from 1 with markdown links when URLs are included, or as bulleted
title-and-snippet lines when they are not. -/
theorem C10_formatting (shouldIncludeUrl : Bool) (textResults : List TextResult)
    (searchResultsToConsider : Nat) :
    (textResults.take searchResultsToConsider = [] →
       getFormattedSearchResults shouldIncludeUrl textResults searchResultsToConsider =
         "None.") ∧
    (textResults.take searchResultsToConsider ≠ [] →
       getFormattedSearchResults shouldIncludeUrl textResults searchResultsToConsider =
         if shouldIncludeUrl then
           String.intercalate "\n"
             ((textResults.take searchResultsToConsider).enum.map fun p => urlLine p.1 p.2)
         else
           String.intercalate "\n"
             ((textResults.take searchResultsToConsider).map plainLine)) := by
  constructor
  · intro h
    simp [getFormattedSearchResults, h]
  · intro h
    have h0 : ¬ (textResults.take searchResultsToConsider).length = 0 := by
      simpa [List.length_eq_zero] using h
    simp only [getFormattedSearchResults]
    rw [if_neg h0]

/-- Witness for C10 amended, at one populated and one truncated input. -/
theorem C10_formatting_witness :
    getFormattedSearchResults true [("t", "s", "u")] 3 = "1. [t](u) | s" ∧
    getFormattedSearchResults false [] 3 = "None." := by
  constructor
  · have h := (C10_formatting true [("t", "s", "u")] 3).2 (by decide)
    rw [h]
    decide
  · exact (C10_formatting false [] 3).1 (by decide)

theorem dispatch_invocations (env : Env) (s : Sys) :
    invocations (dispatchBackends env s).1.events = invocations s.events ++
      (if env.settings.inferenceType == "openai" then [Backend.openAi]
       else if !env.isWebGPUAvailable || !env.settings.enableWebGpu then [Backend.wllama]
       else if (generateTextWithWebLlm env (emit s (Event.invoke Backend.webLlm))).throws then
         [Backend.webLlm, Backend.wllama]
       else [Backend.webLlm]) := by
  have hOA : ∀ s', invocations (generateTextWithOpenAI env s').events = [] :=
    fun s' => invocations_nil (generateTextWithOpenAI_events env s')
  have hWL : ∀ s', invocations (generateTextWithWebLlm env s').events = [] :=
    fun s' => invocations_nil (generateTextWithWebLlm_events env s')
  have hWM : ∀ s', invocations (generateTextWithWllama env s').events = [] :=
    fun s' => invocations_nil (generateTextWithWllama_events env s')
  unfold dispatchBackends runBackend
  by_cases hone : (env.settings.inferenceType == "openai") = true
  · rw [if_pos hone]
    simp only [hone, if_true, emit]
    rw [invocations_append, invocations_append, hOA]
    simp [invocations, invokeOf]
  · rw [if_neg hone]
    simp only [Bool.not_eq_true] at hone
    simp only [hone, Bool.false_eq_true, if_false]
    by_cases hguard : (!env.isWebGPUAvailable || !env.settings.enableWebGpu) = true
    · rw [if_pos hguard]
      simp only [hguard, if_true, emit]
      rw [invocations_append, invocations_append, hWM]
      simp [invocations, invokeOf]
    · rw [if_neg hguard]
      simp only [hguard, Bool.false_eq_true, if_false]
      by_cases hthrow : (generateTextWithWebLlm env
          (emit s (Event.invoke Backend.webLlm))).throws = true
      · simp only [emit] at hthrow ⊢
        simp only [hthrow, if_true]
        rw [invocations_append, invocations_append, invocations_append,
          invocations_append, hWL, hWM]
        simp [invocations, invokeOf]
      · simp only [emit] at hthrow ⊢
        simp only [hthrow, Bool.false_eq_true, if_false]
        rw [invocations_append, invocations_append, hWL]
        simp [invocations, invokeOf]

theorem prepare_invocations (env : Env) (hq : env.query ≠ "")
    (hai : env.settings.enableAiResponse = true) :
    invocations (prepareTextGeneration env).events =
      invocations (dispatchBackends env (loadingSys env)).1.events := by
  have hq2 : (env.query == "") = false := by
    simpa using hq
  simp only [prepareTextGeneration, hq2, Bool.false_eq_true, if_false, hai,
    Bool.not_true]
  by_cases hesc : (dispatchBackends env (loadingSys env)).2 = true
  · simp only [hesc, if_true, emit, setTGAct]
    rw [List.append_assoc, List.append_assoc, invocations_append]
    simp [invocations, invokeOf]
  · simp only [hesc, Bool.false_eq_true, if_false]
    by_cases hint : (if env.extAtFinish then TGState.interrupted
        else (dispatchBackends env (loadingSys env)).1.tgState) = TGState.interrupted
    · rw [if_pos hint]
      simp only [emit]
      rw [invocations_append]
      simp [invocations, invokeOf]
    · rw [if_neg hint]
      simp only [emit, setTGAct]
      rw [List.append_assoc, invocations_append]
      simp [invocations, invokeOf]

/-- C1: with a non-empty query and AI responses enabled, a run of
`prepareTextGeneration` with a non-`"openai"` inference type that hits a
WebLLM failure — WebGPU unavailable, WebGPU disabled, or the WebLLM run
throwing — performs exactly one fallback hop to the Wllama backend, in that
fixed order, and nothing after it (no retry, no further fallback, even when
Wllama itself throws); with inference type `"openai"` the OpenAI backend is
the only one invoked and no fallback occurs at all. -/
theorem C1_single_fallback_hop (env : Env) (hq : env.query ≠ "")
    (hai : env.settings.enableAiResponse = true) :
    (env.settings.inferenceType = "openai" →
       invocations (prepareTextGeneration env).events = [Backend.openAi]) ∧
    (env.settings.inferenceType ≠ "openai" →
       ((env.isWebGPUAvailable = false ∨ env.settings.enableWebGpu = false) →
          invocations (prepareTextGeneration env).events = [Backend.wllama]) ∧
       (env.isWebGPUAvailable = true → env.settings.enableWebGpu = true →
          ((generateTextWithWebLlm env
              (emit (loadingSys env) (Event.invoke Backend.webLlm))).throws = true →
             invocations (prepareTextGeneration env).events =
               [Backend.webLlm, Backend.wllama]) ∧
          ((generateTextWithWebLlm env
              (emit (loadingSys env) (Event.invoke Backend.webLlm))).throws = false →
             invocations (prepareTextGeneration env).events = [Backend.webLlm]))) := by
  have hbase := prepare_invocations env hq hai
  have hdisp := dispatch_invocations env (loadingSys env)
  have hload : invocations (loadingSys env).events = [] := rfl
  rw [hdisp, hload, List.nil_append] at hbase
  constructor
  · intro htype
    rw [hbase, if_pos (by simp [htype])]
  · intro htype
    have hone : (env.settings.inferenceType == "openai") = false := by
      simpa using htype
    refine ⟨?_, ?_⟩
    · intro hgpu
      rw [hbase, if_neg (by simp [hone]), if_pos ?_]
      rcases hgpu with h | h <;> simp [h]
    · intro hgpu hweb
      constructor
      · intro hthrow
        rw [hbase, if_neg (by simp [hone]), if_neg (by simp [hgpu, hweb]),
          if_pos hthrow]
      · intro hthrow
        rw [hbase, if_neg (by simp [hone]), if_neg (by simp [hgpu, hweb]),
          if_neg (by simp [hthrow])]

/-- A baseline concrete environment for witnesses and counterexamples: a
non-empty query, AI responses enabled, one search result considered, the
`"openai"` inference type, two delivered chunks, and no failures, stop
strings, or interruptions. -/
def envBase : Env where
  query := "q"
  settings :=
    { enableAiResponse := true, inferenceType := "openai",
      enableWebGpu := true, searchResultsToConsider := 1 }
  isWebGPUAvailable := true
  rl0 := 0
  extAtFinish := false
  openAiCreateThrows := false
  openAiChunks := [some "a", some "b"]
  openAiErrAfter := none
  openAiExt := fun _ => false
  openAiTime := fun _ => 0
  webLlmPreThrows := false
  webLlmCached := false
  webLlmEngineThrows := false
  webLlmCreateThrows := false
  webLlmChunks := [some "c"]
  webLlmErrAfter := none
  webLlmExt := fun _ => false
  webLlmTime := fun _ => 0
  wllamaInitThrows := false
  wllamaCreateThrows := false
  wllamaTokens := ["x"]
  wllamaStopStrings := none
  wllamaExt := fun _ => false
  wllamaTime := fun _ => 0

/-- C9: an empty query returns before any effect; a non-empty query with AI
responses disabled starts the search but never writes the text-generation
state. -/
theorem C9_early_return_frame (env : Env) :
    (env.query = "" →
       (prepareTextGeneration env).events = [] ∧
       Event.searchStart ∉ (prepareTextGeneration env).events ∧
       (∀ text, Event.setResponse text ∉ (prepareTextGeneration env).events) ∧
       Event.setSearchResultsEv ∉ (prepareTextGeneration env).events ∧
       (∀ v, Event.setSearchState v ∉ (prepareTextGeneration env).events) ∧
       (∀ v, Event.setTG v ∉ (prepareTextGeneration env).events)) ∧
    (env.query ≠ "" → env.settings.enableAiResponse = false →
       Event.searchStart ∈ (prepareTextGeneration env).events ∧
       ∀ v, Event.setTG v ∉ (prepareTextGeneration env).events) := by
  constructor
  · intro hq
    have hq2 : (env.query == "") = true := by simpa using hq
    have hev : (prepareTextGeneration env).events = [] := by
      simp [prepareTextGeneration, hq2, initialSys]
    rw [hev]
    simp
  · intro hq hai
    have hq2 : (env.query == "") = false := by simpa using hq
    have hev : (prepareTextGeneration env).events = preSearchEvents := by
      simp [prepareTextGeneration, hq2, hai, emits, initialSys]
    rw [hev]
    constructor
    · simp [preSearchEvents]
    · intro v
      simp [preSearchEvents]

/-- Witness for C9 at two concrete environments (empty query; AI disabled). -/
theorem C9_early_return_frame_witness :
    (prepareTextGeneration { envBase with query := "" }).events = [] ∧
    Event.searchStart ∈ (prepareTextGeneration
      { envBase with settings := { envBase.settings with enableAiResponse := false } }).events ∧
    ∀ v, Event.setTG v ∉ (prepareTextGeneration
      { envBase with settings := { envBase.settings with enableAiResponse := false } }).events := by
  refine ⟨(C9_early_return_frame { envBase with query := "" }).1 rfl |>.1, ?_, ?_⟩
  · exact ((C9_early_return_frame
      { envBase with settings := { envBase.settings with enableAiResponse := false } }).2
      (by decide) rfl).1
  · exact ((C9_early_return_frame
      { envBase with settings := { envBase.settings with enableAiResponse := false } }).2
      (by decide) rfl).2

/-! ### Shape of a full generation run -/

/-- The events of a full `prepareTextGeneration` run with a non-empty query
and AI responses enabled: the pre-search prefix and `loadingModel` write,
the dispatch-phase events, and the closing writes of the branch taken at
lines 59-64. -/
theorem prepare_shape (env : Env) (hq : env.query ≠ "")
    (hai : env.settings.enableAiResponse = true) :
    ∃ t, (∀ e ∈ t, midEv e = true) ∧
      ((dispatchBackends env (loadingSys env)).2 = true →
         (prepareTextGeneration env).events = (loadingSys env).events ++ t ++
           [Event.logErrorEv, Event.setTG TGState.failed, Event.logTimingEv] ∧
         (prepareTextGeneration env).tgState = TGState.failed) ∧
      ((dispatchBackends env (loadingSys env)).2 = false →
         ((if env.extAtFinish then TGState.interrupted
           else (dispatchBackends env (loadingSys env)).1.tgState) = TGState.interrupted →
            (prepareTextGeneration env).events = (loadingSys env).events ++ t ++
              [Event.logTimingEv] ∧
            (prepareTextGeneration env).tgState = TGState.interrupted) ∧
         ((if env.extAtFinish then TGState.interrupted
           else (dispatchBackends env (loadingSys env)).1.tgState) ≠ TGState.interrupted →
            (prepareTextGeneration env).events = (loadingSys env).events ++ t ++
              [Event.setTG TGState.completed, Event.logTimingEv] ∧
            (prepareTextGeneration env).tgState = TGState.completed)) := by
  have hq2 : (env.query == "") = false := by simpa using hq
  obtain ⟨t, ht, hmid⟩ := dispatchBackends_suffix env (loadingSys env)
  refine ⟨t, hmid, ?_, ?_⟩
  · intro hesc
    simp only [prepareTextGeneration, hq2, Bool.false_eq_true, if_false, hai,
      Bool.not_true, hesc, if_true, emit, setTGAct]
    rw [ht]
    constructor
    · simp [List.append_assoc]
    · trivial
  · intro hesc
    constructor
    · intro hint
      simp only [prepareTextGeneration, hq2, Bool.false_eq_true, if_false, hai,
        Bool.not_true, hesc, emit, setTGAct, hint, eq_self_iff_true, if_true]
      rw [ht]
      constructor
      · simp [List.append_assoc]
      · trivial
    · intro hint
      simp only [prepareTextGeneration, hq2, Bool.false_eq_true, if_false, hai,
        Bool.not_true, hesc, emit, setTGAct]
      rw [if_neg hint, ht]
      constructor
      · simp [List.append_assoc]
      · trivial

/-- Witness for C1 at three concrete environments: the OpenAI type, a
non-OpenAI type with WebGPU disabled, and a non-OpenAI type whose WebLLM
engine creation throws (Wllama succeeding). -/
theorem C1_single_fallback_hop_witness :
    invocations (prepareTextGeneration envBase).events = [Backend.openAi] ∧
    invocations (prepareTextGeneration { envBase with
      settings := { envBase.settings with inferenceType := "wllama", enableWebGpu := false } }).events =
      [Backend.wllama] ∧
    invocations (prepareTextGeneration { envBase with
      settings := { envBase.settings with inferenceType := "wllama" },
      webLlmEngineThrows := true }).events = [Backend.webLlm, Backend.wllama] := by
  refine ⟨?_, ?_, ?_⟩
  · exact (C1_single_fallback_hop envBase (by decide) rfl).1 rfl
  · exact ((C1_single_fallback_hop { envBase with
      settings := { envBase.settings with inferenceType := "wllama", enableWebGpu := false } }
      (by decide) rfl).2 (by decide)).1 (Or.inr rfl)
  · exact (((C1_single_fallback_hop { envBase with
      settings := { envBase.settings with inferenceType := "wllama" },
      webLlmEngineThrows := true } (by decide) rfl).2
      (by decide)).2 rfl rfl).1 (by decide)

/-- The environment of the C4 counterexample: a non-OpenAI inference type, a
cached WebLLM model whose engine creation throws, and a successful Wllama
fallback. -/
def envC4 : Env :=
  { envBase with
    settings := { envBase.settings with inferenceType := "wllama" },
    webLlmCached := true,
    webLlmEngineThrows := true }

/-- C4 counterexample: the concrete fallback run of `envC4` writes the state
sequence loadingModel, preparingToGenerate, awaitingSearchResults,
preparingToGenerate, generating, completed — it enters
`preparingToGenerate`, which lies outside the claimed enum, and moves
backward from `preparingToGenerate` to `awaitingSearchResults`, so the
claimed forward-only progression through idle, loadingModel,
awaitingSearchResults, generating, terminal is violated. -/
theorem C4_counterexample :
    tgWrites (prepareTextGeneration envC4).events =
      [TGState.loadingModel, TGState.preparingToGenerate,
       TGState.awaitingSearchResults, TGState.preparingToGenerate,
       TGState.generating, TGState.completed] ∧
    TGState.preparingToGenerate ∉
      [TGState.idle, TGState.loadingModel, TGState.awaitingSearchResults,
       TGState.generating, TGState.completed, TGState.failed,
       TGState.interrupted] := by
  exact ⟨by decide, by decide⟩

/-- C4 amended: with a non-empty query and AI responses enabled, every state
the code writes lies in the enum loadingModel, awaitingSearchResults,
preparingToGenerate, generating, completed, failed (the claimed enum was
missing preparingToGenerate; idle is only the initial value and interrupted
is only ever written externally); the first write is loadingModel; the run
ends in exactly one of completed, failed, or interrupted; and a terminal
state, once written, is the last write.  Strict forward progression does not
hold (see the counterexample). -/
theorem C4_state_machine (env : Env) (hq : env.query ≠ "")
    (hai : env.settings.enableAiResponse = true) :
    ((prepareTextGeneration env).tgState = TGState.completed ∨
     (prepareTextGeneration env).tgState = TGState.failed ∨
     (prepareTextGeneration env).tgState = TGState.interrupted) ∧
    (tgWrites (prepareTextGeneration env).events).head? = some TGState.loadingModel ∧
    (∀ v ∈ tgWrites (prepareTextGeneration env).events,
       v = TGState.loadingModel ∨ v = TGState.awaitingSearchResults ∨
       v = TGState.preparingToGenerate ∨ v = TGState.generating ∨
       v = TGState.completed ∨ v = TGState.failed) ∧
    (∀ v ∈ (tgWrites (prepareTextGeneration env).events).dropLast,
       v ≠ TGState.completed ∧ v ≠ TGState.failed) := by
  obtain ⟨t, hmid, hesc, hok⟩ := prepare_shape env hq hai
  have hload : tgWrites (loadingSys env).events = [TGState.loadingModel] := rfl
  have hmidw := tgWrites_of_midEv hmid
  by_cases h2 : (dispatchBackends env (loadingSys env)).2 = true
  · obtain ⟨hev, hst⟩ := hesc h2
    have hw : tgWrites (prepareTextGeneration env).events =
        [TGState.loadingModel] ++ tgWrites t ++ [TGState.failed] := by
      rw [hev, tgWrites_append, tgWrites_append, hload]
      rfl
    refine ⟨Or.inr (Or.inl hst), ?_, ?_, ?_⟩
    · rw [hw]; rfl
    · intro v hv
      rw [hw] at hv
      rcases List.mem_append.1 hv with h | h
      · rcases List.mem_append.1 h with h | h
        · exact Or.inl (List.mem_singleton.1 h)
        · rcases hmidw v h with h | h | h
          · exact Or.inr (Or.inl h)
          · exact Or.inr (Or.inr (Or.inl h))
          · exact Or.inr (Or.inr (Or.inr (Or.inl h)))
      · exact Or.inr (Or.inr (Or.inr (Or.inr (Or.inr (List.mem_singleton.1 h)))))
    · intro v hv
      rw [hw, List.append_assoc] at hv
      rw [← List.append_assoc, List.dropLast_concat] at hv
      rcases List.mem_append.1 hv with h | h
      · rw [List.mem_singleton.1 h]
        exact ⟨fun hc => TGState.noConfusion hc, fun hc => TGState.noConfusion hc⟩
      · rcases hmidw v h with h | h | h <;> subst h <;>
          exact ⟨fun hc => TGState.noConfusion hc, fun hc => TGState.noConfusion hc⟩
  · have h2f : (dispatchBackends env (loadingSys env)).2 = false := by
      simpa using h2
    by_cases hint : (if env.extAtFinish then TGState.interrupted
        else (dispatchBackends env (loadingSys env)).1.tgState) = TGState.interrupted
    · obtain ⟨hev, hst⟩ := (hok h2f).1 hint
      have hw : tgWrites (prepareTextGeneration env).events =
          [TGState.loadingModel] ++ tgWrites t := by
        rw [hev, tgWrites_append, tgWrites_append, hload]
        simp [tgWrites, tgOf]
      refine ⟨Or.inr (Or.inr hst), ?_, ?_, ?_⟩
      · rw [hw]; rfl
      · intro v hv
        rw [hw] at hv
        rcases List.mem_append.1 hv with h | h
        · exact Or.inl (List.mem_singleton.1 h)
        · rcases hmidw v h with h | h | h
          · exact Or.inr (Or.inl h)
          · exact Or.inr (Or.inr (Or.inl h))
          · exact Or.inr (Or.inr (Or.inr (Or.inl h)))
      · intro v hv
        have hv2 := List.dropLast_subset _ hv
        rw [hw] at hv2
        rcases List.mem_append.1 hv2 with h | h
        · rw [List.mem_singleton.1 h]
          exact ⟨fun hc => TGState.noConfusion hc, fun hc => TGState.noConfusion hc⟩
        · rcases hmidw v h with h | h | h <;> subst h <;>
            exact ⟨fun hc => TGState.noConfusion hc, fun hc => TGState.noConfusion hc⟩
    · obtain ⟨hev, hst⟩ := (hok h2f).2 hint
      have hw : tgWrites (prepareTextGeneration env).events =
          [TGState.loadingModel] ++ tgWrites t ++ [TGState.completed] := by
        rw [hev, tgWrites_append, tgWrites_append, hload]
        rfl
      refine ⟨Or.inl hst, ?_, ?_, ?_⟩
      · rw [hw]; rfl
      · intro v hv
        rw [hw] at hv
        rcases List.mem_append.1 hv with h | h
        · rcases List.mem_append.1 h with h | h
          · exact Or.inl (List.mem_singleton.1 h)
          · rcases hmidw v h with h | h | h
            · exact Or.inr (Or.inl h)
            · exact Or.inr (Or.inr (Or.inl h))
            · exact Or.inr (Or.inr (Or.inr (Or.inl h)))
        · exact Or.inr (Or.inr (Or.inr (Or.inr (Or.inl (List.mem_singleton.1 h)))))
      · intro v hv
        rw [hw, List.append_assoc] at hv
        rw [← List.append_assoc, List.dropLast_concat] at hv
        rcases List.mem_append.1 hv with h | h
        · rw [List.mem_singleton.1 h]
          exact ⟨fun hc => TGState.noConfusion hc, fun hc => TGState.noConfusion hc⟩
        · rcases hmidw v h with h | h | h <;> subst h <;>
            exact ⟨fun hc => TGState.noConfusion hc, fun hc => TGState.noConfusion hc⟩

/-- Witness for C4 amended at the baseline environment. -/
theorem C4_state_machine_witness :
    ((prepareTextGeneration envBase).tgState = TGState.completed ∨
     (prepareTextGeneration envBase).tgState = TGState.failed ∨
     (prepareTextGeneration envBase).tgState = TGState.interrupted) ∧
    (tgWrites (prepareTextGeneration envBase).events).head? =
      some TGState.loadingModel :=
  ⟨(C4_state_machine envBase (by decide) rfl).1,
   (C4_state_machine envBase (by decide) rfl).2.1⟩

/-- The environment of the C5 counterexample: a non-OpenAI inference type
whose WebLLM run fails in the generation phase (the completion call throws
after the model initialized successfully), with a successful Wllama
fallback. -/
def envC5 : Env :=
  { envBase with
    settings := { envBase.settings with inferenceType := "wllama" },
    webLlmCreateThrows := true,
    wllamaTokens := [] }

/-- C5 counterexample: in the run of `envC5` an error is raised during
response generation that is not a WebLLM model-initialization error (the
WebLLM completion call throws after initialization succeeded), yet the run
is neither logged as an error nor surfaced as `"failed"` — it falls back to
Wllama and ends `"completed"`. -/
theorem C5_counterexample :
    envC5.webLlmPreThrows = false ∧ envC5.webLlmEngineThrows = false ∧
    (generateTextWithWebLlm envC5
      (emit (loadingSys envC5) (Event.invoke Backend.webLlm))).throws = true ∧
    (prepareTextGeneration envC5).tgState = TGState.completed ∧
    Event.logErrorEv ∉ (prepareTextGeneration envC5).events ∧
    Event.setTG TGState.failed ∉ (prepareTextGeneration envC5).events := by
  exact ⟨rfl, rfl, by decide, by decide, by decide, by decide⟩

/-- C5 amended: an error that propagates out of the backend phase — any
OpenAI error, or any Wllama error (Wllama runs either behind the WebGPU
guards or as the fallback) — is logged and surfaced as the terminal
`"failed"` state, written last; a WebLLM error of any kind (initialization
or generation) instead triggers the single Wllama fallback and does not by
itself produce `"failed"`.  A run whose backend phase completes without a
propagating error ends in `"interrupted"` when the state read at line 59 is
`"interrupted"` (never writing `"completed"`), and in `"completed"`,
written last, otherwise. -/
theorem C5_error_terminal_states (env : Env) (hq : env.query ≠ "")
    (hai : env.settings.enableAiResponse = true) :
    ((dispatchBackends env (loadingSys env)).2 = true →
       (prepareTextGeneration env).tgState = TGState.failed ∧
       Event.logErrorEv ∈ (prepareTextGeneration env).events ∧
       (tgWrites (prepareTextGeneration env).events).getLast? = some TGState.failed) ∧
    ((dispatchBackends env (loadingSys env)).2 = false →
       ((if env.extAtFinish then TGState.interrupted
         else (dispatchBackends env (loadingSys env)).1.tgState) = TGState.interrupted →
          (prepareTextGeneration env).tgState = TGState.interrupted ∧
          Event.setTG TGState.completed ∉ (prepareTextGeneration env).events) ∧
       ((if env.extAtFinish then TGState.interrupted
         else (dispatchBackends env (loadingSys env)).1.tgState) ≠ TGState.interrupted →
          (prepareTextGeneration env).tgState = TGState.completed ∧
          (tgWrites (prepareTextGeneration env).events).getLast? =
            some TGState.completed)) := by
  obtain ⟨t, hmid, hesc, hok⟩ := prepare_shape env hq hai
  have hload : tgWrites (loadingSys env).events = [TGState.loadingModel] := rfl
  constructor
  · intro h2
    obtain ⟨hev, hst⟩ := hesc h2
    refine ⟨hst, ?_, ?_⟩
    · rw [hev]
      simp
    · rw [hev, tgWrites_append, tgWrites_append, hload]
      have htail : tgWrites [Event.logErrorEv, Event.setTG TGState.failed,
          Event.logTimingEv] = [TGState.failed] := rfl
      rw [htail, List.append_assoc]
      rw [List.getLast?_append_of_ne_nil _ (by simp)]
      rw [List.getLast?_append_of_ne_nil _ (by simp)]
      rfl
  · intro h2
    constructor
    · intro hint
      obtain ⟨hev, hst⟩ := (hok h2).1 hint
      refine ⟨hst, ?_⟩
      rw [hev]
      intro hc
      rcases List.mem_append.1 hc with h | h
      · rcases List.mem_append.1 h with h | h
        · have hle : (loadingSys env).events =
              preSearchEvents ++ [Event.setTG TGState.loadingModel] := rfl
          rw [hle] at h
          simp [preSearchEvents] at h
        · exact midEv_ne_setTG_completed (hmid _ h) rfl
      · simp at h
    · intro hint
      obtain ⟨hev, hst⟩ := (hok h2).2 hint
      refine ⟨hst, ?_⟩
      rw [hev, tgWrites_append, tgWrites_append, hload]
      have htail : tgWrites [Event.setTG TGState.completed, Event.logTimingEv] =
        [TGState.completed] := rfl
      rw [htail, List.append_assoc]
      rw [List.getLast?_append_of_ne_nil _ (by simp)]
      rw [List.getLast?_append_of_ne_nil _ (by simp)]
      rfl

/-- Witness for C5 amended, at a failing OpenAI run and at the clean
baseline run. -/
theorem C5_error_terminal_states_witness :
    (prepareTextGeneration { envBase with openAiCreateThrows := true }).tgState =
      TGState.failed ∧
    Event.logErrorEv ∈
      (prepareTextGeneration { envBase with openAiCreateThrows := true }).events ∧
    (prepareTextGeneration envBase).tgState = TGState.completed := by
  refine ⟨?_, ?_, ?_⟩
  · exact ((C5_error_terminal_states { envBase with openAiCreateThrows := true }
      (by decide) rfl).1 (by decide)).1
  · exact ((C5_error_terminal_states { envBase with openAiCreateThrows := true }
      (by decide) rfl).1 (by decide)).2.1
  · exact ((C5_error_terminal_states envBase (by decide) rfl).2 (by decide)).2
      (by decide) |>.1

theorem loopEvent_respOf {e : Event} (h : loopEvent e = true) : respOf e = none := by
  cases e <;> simp_all [loopEvent, respOf]

theorem loopEvent_ne_awaitSearch {e : Event} (h : loopEvent e = true) :
    e ≠ Event.awaitSearch := by
  intro he
  subst he
  simp [loopEvent] at h

/-- The events of one OpenAI backend run: `canStartResponding`, the
`preparingToGenerate` write and the completion call, then only token-loop
events and unconditional `updateResponse` writes. -/
theorem generateTextWithOpenAI_shape (env : Env) (s : Sys) :
    ∃ rest, (generateTextWithOpenAI env s).events =
      canStartRespondingEv env.settings ++
        [Event.setTG TGState.preparingToGenerate,
         Event.completionCall Backend.openAi] ++ rest ∧
      ∀ e ∈ rest, loopEvent e = true ∨ ∃ text, e = Event.setResponse text := by
  obtain ⟨t1, ht1, hl1⟩ := streamLoop_suffix Backend.openAi env.openAiExt env.openAiTime
    (effChunks env.openAiChunks env.openAiErrAfter) 0
    { tg := TGState.preparingToGenerate, streamed := "", rlLast := s.rlLast
      events := canStartRespondingEv env.settings ++
        [Event.setTG TGState.preparingToGenerate, Event.completionCall Backend.openAi] }
  simp only at ht1
  by_cases hc : env.openAiCreateThrows = true
  · refine ⟨[], ?_, by simp⟩
    simp [generateTextWithOpenAI, hc, List.append_assoc]
  · simp only [generateTextWithOpenAI, hc, Bool.false_eq_true, if_false]
    by_cases h2 : (!(streamLoop Backend.openAi env.openAiExt env.openAiTime 0
        { tg := TGState.preparingToGenerate, streamed := "", rlLast := s.rlLast
          events := canStartRespondingEv env.settings ++
            [Event.setTG TGState.preparingToGenerate,
             Event.completionCall Backend.openAi] }
        (effChunks env.openAiChunks env.openAiErrAfter)).2 &&
        streamThrowsAt env.openAiChunks env.openAiErrAfter) = true
    · rw [if_pos h2]
      refine ⟨t1, ?_, fun e he => Or.inl (hl1 e he)⟩
      simp only
      rw [ht1, List.append_assoc]
    · rw [if_neg h2]
      refine ⟨t1 ++ [Event.setResponse (streamLoop Backend.openAi env.openAiExt
          env.openAiTime 0
          { tg := TGState.preparingToGenerate, streamed := "", rlLast := s.rlLast
            events := canStartRespondingEv env.settings ++
              [Event.setTG TGState.preparingToGenerate,
               Event.completionCall Backend.openAi] }
          (effChunks env.openAiChunks env.openAiErrAfter)).1.streamed], ?_, ?_⟩
      · simp only
        rw [ht1, List.append_assoc, List.append_assoc]
      · intro e he
        rcases List.mem_append.1 he with h | h
        · exact Or.inl (hl1 e h)
        · exact Or.inr ⟨_, List.mem_singleton.1 h⟩

/-- C6: in the OpenAI backend run, when `searchResultsToConsider > 0` the
state is set to `awaitingSearchResults` and the search promise is awaited to
completion before the prompt is built and the streaming completion call is
issued; when it is `0` nothing awaits the search. -/
theorem C6_search_sequenced_before_generation (env : Env) (s : Sys) :
    (0 < env.settings.searchResultsToConsider →
       ∃ rest, (generateTextWithOpenAI env s).events =
         [Event.setTG TGState.awaitingSearchResults, Event.awaitSearch,
          Event.setTG TGState.preparingToGenerate,
          Event.completionCall Backend.openAi] ++ rest) ∧
    (env.settings.searchResultsToConsider = 0 →
       (∃ rest, (generateTextWithOpenAI env s).events =
          [Event.setTG TGState.preparingToGenerate,
           Event.completionCall Backend.openAi] ++ rest) ∧
       Event.awaitSearch ∉ (generateTextWithOpenAI env s).events) := by
  obtain ⟨rest, hev, hrest⟩ := generateTextWithOpenAI_shape env s
  constructor
  · intro hn
    have hc : canStartRespondingEv env.settings =
        [Event.setTG TGState.awaitingSearchResults, Event.awaitSearch] := by
      unfold canStartRespondingEv
      rw [if_pos hn]
    exact ⟨rest, by rw [hev, hc]; rfl⟩
  · intro hn
    have hc : canStartRespondingEv env.settings = [] := by
      unfold canStartRespondingEv
      rw [if_neg (by omega)]
    refine ⟨⟨rest, by rw [hev, hc]; rfl⟩, ?_⟩
    rw [hev, hc]
    intro hmem
    simp only [List.nil_append, List.mem_append, List.mem_cons,
      List.mem_singleton] at hmem
    rcases hmem with (h | h) | h
    · exact Event.noConfusion h
    · rcases h with h | h
      · exact Event.noConfusion h
      · exact absurd h (List.not_mem_nil _)
    · rcases hrest _ h with hl | ⟨text, htext⟩
      · exact loopEvent_ne_awaitSearch hl rfl
      · exact Event.noConfusion htext

/-- Witness for C6 at the baseline environment and its zero-results variant. -/
theorem C6_search_sequenced_before_generation_witness :
    (∃ rest, (generateTextWithOpenAI envBase (loadingSys envBase)).events =
       [Event.setTG TGState.awaitingSearchResults, Event.awaitSearch,
        Event.setTG TGState.preparingToGenerate,
        Event.completionCall Backend.openAi] ++ rest) ∧
    Event.awaitSearch ∉ (generateTextWithOpenAI
      { envBase with settings := { envBase.settings with searchResultsToConsider := 0 } }
      (loadingSys { envBase with
        settings := { envBase.settings with searchResultsToConsider := 0 } })).events := by
  constructor
  · exact (C6_search_sequenced_before_generation envBase (loadingSys envBase)).1
      (by decide)
  · exact ((C6_search_sequenced_before_generation _ _).2 rfl).2

theorem canStartRespondingEv_respOf (settings : Settings) :
    List.filterMap respOf (canStartRespondingEv settings) = [] := by
  unfold canStartRespondingEv
  split <;> simp [respOf]

theorem respOf_nil_of_loopEvents {t : List Event}
    (h : ∀ e ∈ t, loopEvent e = true) : List.filterMap respOf t = [] :=
  List.filterMap_eq_nil.2 fun e he => loopEvent_respOf (h e he)

/-- C7: a completed (never-interrupted, error-free) streaming run of the
OpenAI or WebLLM backend publishes as its final response exactly the
concatenation, in stream order, of the non-empty delta contents of the
received chunks, and nothing else. -/
theorem C7_final_response_is_delta_concat (env : Env) (s : Sys)
    (h1 : env.openAiCreateThrows = false) (h2 : env.openAiErrAfter = none)
    (h3 : ∀ j, env.openAiExt j = false)
    (h4 : env.settings.enableAiResponse = true)
    (h5 : env.webLlmPreThrows = false) (h6 : env.webLlmEngineThrows = false)
    (h7 : env.webLlmCreateThrows = false) (h8 : env.webLlmErrAfter = none)
    (h9 : ∀ j, env.webLlmExt j = false) :
    lastSetResponse (generateTextWithOpenAI env s).events =
      some (concatDeltas env.openAiChunks) ∧
    lastSetResponse (generateTextWithWebLlm env s).events =
      some (concatDeltas env.webLlmChunks) := by
  constructor
  · obtain ⟨t1, ht1, hsnd, hstr, -, -, -, hloop, -⟩ :=
      streamLoop_clean Backend.openAi env.openAiExt env.openAiTime h3
        (effChunks env.openAiChunks env.openAiErrAfter) 0
        { tg := TGState.preparingToGenerate, streamed := "", rlLast := s.rlLast
          events := canStartRespondingEv env.settings ++
            [Event.setTG TGState.preparingToGenerate,
             Event.completionCall Backend.openAi] }
        (fun hcon => TGState.noConfusion hcon)
    simp only at ht1 hstr
    simp only [generateTextWithOpenAI, h1, Bool.false_eq_true, if_false]
    rw [if_neg (by rw [hsnd, h2]; simp [streamThrowsAt])]
    unfold lastSetResponse
    rw [ht1, List.filterMap_append, List.filterMap_append, List.filterMap_append,
      canStartRespondingEv_respOf, respOf_nil_of_loopEvents hloop]
    simp only [List.nil_append, List.append_nil]
    rw [hstr, h2]
    have hpre : List.filterMap respOf
        [Event.setTG TGState.preparingToGenerate,
         Event.completionCall Backend.openAi] = [] := rfl
    rw [hpre]
    rfl
  · obtain ⟨t1, ht1, hsnd, hstr, -, -, -, hloop, -⟩ :=
      streamLoop_clean Backend.webLlm env.webLlmExt env.webLlmTime h9
        (effChunks env.webLlmChunks env.webLlmErrAfter) 0
        { tg := TGState.preparingToGenerate, streamed := "", rlLast := s.rlLast
          events := (if env.webLlmCached then
              [Event.setTG TGState.preparingToGenerate] else []) ++
            canStartRespondingEv env.settings ++
            [Event.setTG TGState.preparingToGenerate,
             Event.completionCall Backend.webLlm] }
        (fun hcon => TGState.noConfusion hcon)
    simp only at ht1 hstr
    simp only [generateTextWithWebLlm, h5, h6, h7, h4, Bool.false_eq_true, if_false,
      if_true]
    rw [if_neg (by rw [hsnd, h8]; simp [streamThrowsAt])]
    unfold lastSetResponse
    rw [ht1, List.filterMap_append, List.filterMap_append, List.filterMap_append,
      List.filterMap_append, canStartRespondingEv_respOf,
      respOf_nil_of_loopEvents hloop]
    simp only [List.nil_append, List.append_nil]
    rw [hstr, h8]
    have hcached : List.filterMap respOf (if env.webLlmCached then
        [Event.setTG TGState.preparingToGenerate] else []) = [] := by
      split <;> rfl
    have hpre : List.filterMap respOf
        [Event.setTG TGState.preparingToGenerate,
         Event.completionCall Backend.webLlm] = [] := rfl
    rw [hpre, hcached]
    rfl

/-- Witness for C7 at the baseline environment: the OpenAI stream delivers
deltas "a" then "b" and publishes "ab"; the WebLLM stream delivers "c". -/
theorem C7_final_response_is_delta_concat_witness :
    lastSetResponse (generateTextWithOpenAI envBase (loadingSys envBase)).events =
      some "ab" ∧
    lastSetResponse (generateTextWithWebLlm envBase (loadingSys envBase)).events =
      some "c" := by
  have h := C7_final_response_is_delta_concat envBase (loadingSys envBase)
    rfl rfl (fun _ => rfl) rfl rfl rfl rfl rfl (fun _ => rfl)
  exact ⟨h.1.trans (by decide), h.2.trans (by decide)⟩

/-- C2: in the token loop of each backend (OpenAI/WebLLM via `streamLoop`
with the backend's own abort event — `completion.controller.abort()` or
`engine.interruptGenerate()` — and Wllama via `wllamaLoop` with
`abortSignal()`, under every stop-string configuration), the shared state is
polled once per streamed token.  With no external interruption no poll
observes `"interrupted"` and the interruption-branch abort mechanism is
never invoked: every delivered token is polled, except that a Wllama stop
string may end generation first, in which case its own `abortSignal()`
(`stopAbortEv`) is the only cancellation and no token after it is received.
When the external flag is first raised before token `k0`, OpenAI/WebLLM
cancel exactly at the poll of token `k0`: it observes `"interrupted"` (no
earlier poll does), the abort mechanism runs exactly once, and exactly
`k0 + 1` tokens are processed; Wllama does the same unless a stop string
already ended generation strictly before `k0` — then the raised flag is
never observed (no further token arrives) and the interruption
`abortSignal()` never runs. -/
theorem C2_interruption_polling :
    (∀ (b : Backend) (ext : Nat → Bool) (time : Nat → ℤ) (st : LoopSt)
       (cs : List (Option String)),
       st.tg ≠ TGState.interrupted → st.events = [] →
       ((∀ j, ext j = false) →
          (polls (streamLoop b ext time 0 st cs).1.events).length = cs.length ∧
          (∀ b', Event.abortEv b' ∉ (streamLoop b ext time 0 st cs).1.events) ∧
          (streamLoop b ext time 0 st cs).2 = false) ∧
       (∀ k0, ext k0 = true → (∀ j, j < k0 → ext j = false) → k0 < cs.length →
          (polls (streamLoop b ext time 0 st cs).1.events).length = k0 + 1 ∧
          (polls (streamLoop b ext time 0 st cs).1.events).getLast? =
            some TGState.interrupted ∧
          (∀ v ∈ (polls (streamLoop b ext time 0 st cs).1.events).dropLast,
             v ≠ TGState.interrupted) ∧
          (streamLoop b ext time 0 st cs).1.events.count (Event.abortEv b) = 1 ∧
          (streamLoop b ext time 0 st cs).2 = true)) ∧
    (∀ (ss : Option (List String)) (ext : Nat → Bool) (time : Nat → ℤ)
       (st : LoopSt) (cs : List String),
       st.tg ≠ TGState.interrupted → st.events = [] →
       ((∀ j, ext j = false) →
          (∀ v ∈ polls (wllamaLoop ss ext time 0 st cs).1.events,
             v ≠ TGState.interrupted) ∧
          (∀ b', Event.abortEv b' ∉ (wllamaLoop ss ext time 0 st cs).1.events) ∧
          ((wllamaLoop ss ext time 0 st cs).2 = false →
             (polls (wllamaLoop ss ext time 0 st cs).1.events).length = cs.length) ∧
          ((wllamaLoop ss ext time 0 st cs).2 = true →
             Event.stopAbortEv ∈ (wllamaLoop ss ext time 0 st cs).1.events ∧
             (polls (wllamaLoop ss ext time 0 st cs).1.events).length ≤ cs.length)) ∧
       (∀ k0, ext k0 = true → (∀ j, j < k0 → ext j = false) → k0 < cs.length →
          (wllamaLoop ss ext time 0 st cs).2 = true ∧
          (((polls (wllamaLoop ss ext time 0 st cs).1.events).length = k0 + 1 ∧
            (polls (wllamaLoop ss ext time 0 st cs).1.events).getLast? =
              some TGState.interrupted ∧
            (∀ v ∈ (polls (wllamaLoop ss ext time 0 st cs).1.events).dropLast,
               v ≠ TGState.interrupted) ∧
            (wllamaLoop ss ext time 0 st cs).1.events.count
              (Event.abortEv Backend.wllama) = 1) ∨
           (Event.stopAbortEv ∈ (wllamaLoop ss ext time 0 st cs).1.events ∧
            (polls (wllamaLoop ss ext time 0 st cs).1.events).length ≤ k0 ∧
            (wllamaLoop ss ext time 0 st cs).1.events.count
              (Event.abortEv Backend.wllama) = 0 ∧
            ∀ v ∈ polls (wllamaLoop ss ext time 0 st cs).1.events,
              v ≠ TGState.interrupted)))) := by
  constructor
  · intro b ext time st cs htg hev
    constructor
    · intro hext
      obtain ⟨t1, ht1, hsnd, -, -, hplen, -, -, habf⟩ :=
        streamLoop_clean b ext time hext cs 0 st htg
      rw [hev] at ht1
      simp only [List.nil_append] at ht1
      rw [ht1]
      exact ⟨hplen, habf, hsnd⟩
    · intro k0 hk0 hbef hlen
      obtain ⟨t1, ht1, hsnd, -, hplen, hplast, hpvals, hcnt, -⟩ :=
        streamLoop_hit b ext time cs k0 0 st (by simpa using hk0)
          (by intro j hj; simpa using hbef j hj) htg hlen
      rw [hev] at ht1
      simp only [List.nil_append] at ht1
      rw [ht1]
      exact ⟨hplen, hplast, hpvals, hcnt, hsnd⟩
  · intro ss ext time st cs htg hev
    constructor
    · intro hext
      obtain ⟨t1, ht1, hpv, habf, hlenf, hstopt⟩ :=
        wllamaLoop_noext ss ext time hext cs 0 st htg
      rw [hev] at ht1
      simp only [List.nil_append] at ht1
      rw [ht1]
      exact ⟨hpv, habf, hlenf, hstopt⟩
    · intro k0 hk0 hbef hlen
      obtain ⟨t1, ht1, hsnd, hdisj⟩ :=
        wllamaLoop_hit_general ss ext time cs k0 0 st (by simpa using hk0)
          (by intro j hj; simpa using hbef j hj) htg hlen
      rw [hev] at ht1
      simp only [List.nil_append] at ht1
      rw [ht1]
      exact ⟨hsnd, hdisj⟩

/-- Witness for C2: an uninterrupted two-chunk OpenAI stream polls twice
with no abort; raising the flag before token 1 aborts exactly once; an
uninterrupted one-token Wllama stream with no stop strings polls once; a
Wllama stream whose token matches the stop string "z" is cancelled by the
stop-string `abortSignal()` and never by the interruption branch; and an
interruption raised before token 0 of a stop-string-configured Wllama
stream invokes the interruption `abortSignal()` exactly once. -/
theorem C2_interruption_polling_witness :
    (polls (streamLoop Backend.openAi (fun _ => false) (fun _ => 0) 0
       ⟨TGState.preparingToGenerate, "", 0, []⟩ [some "a", some "b"]).1.events).length =
      2 ∧
    (streamLoop Backend.openAi (fun k => decide (k = 1)) (fun _ => 0) 0
       ⟨TGState.preparingToGenerate, "", 0, []⟩
       [some "a", some "b"]).1.events.count (Event.abortEv Backend.openAi) = 1 ∧
    (polls (wllamaLoop none (fun _ => false) (fun _ => 0) 0
       ⟨TGState.preparingToGenerate, "", 0, []⟩ ["x"]).1.events).length = 1 ∧
    Event.stopAbortEv ∈ (wllamaLoop (some ["z"]) (fun _ => false) (fun _ => 0) 0
       ⟨TGState.preparingToGenerate, "", 0, []⟩ ["az"]).1.events ∧
    (∀ b', Event.abortEv b' ∉ (wllamaLoop (some ["z"]) (fun _ => false) (fun _ => 0) 0
       ⟨TGState.preparingToGenerate, "", 0, []⟩ ["az"]).1.events) ∧
    (wllamaLoop (some ["z"]) (fun k => decide (k = 0)) (fun _ => 0) 0
       ⟨TGState.preparingToGenerate, "", 0, []⟩ ["a"]).1.events.count
      (Event.abortEv Backend.wllama) = 1 := by
  refine ⟨?_, ?_, ?_, ?_, ?_, ?_⟩
  · exact (((C2_interruption_polling.1 Backend.openAi (fun _ => false) (fun _ => 0)
      ⟨TGState.preparingToGenerate, "", 0, []⟩ [some "a", some "b"]
      (by decide) rfl).1 (fun _ => rfl)).1)
  · exact (((C2_interruption_polling.1 Backend.openAi (fun k => decide (k = 1))
      (fun _ => 0) ⟨TGState.preparingToGenerate, "", 0, []⟩ [some "a", some "b"]
      (by decide) rfl).2 1 rfl
      (by intro j hj; rw [Nat.lt_one_iff.1 hj]; rfl)
      (by decide)).2.2.2.1)
  · exact ((C2_interruption_polling.2 none (fun _ => false) (fun _ => 0)
      ⟨TGState.preparingToGenerate, "", 0, []⟩ ["x"]
      (by decide) rfl).1 (fun _ => rfl)).2.2.1 (by decide)
  · exact (((C2_interruption_polling.2 (some ["z"]) (fun _ => false) (fun _ => 0)
      ⟨TGState.preparingToGenerate, "", 0, []⟩ ["az"]
      (by decide) rfl).1 (fun _ => rfl)).2.2.2 (by decide)).1
  · exact ((C2_interruption_polling.2 (some ["z"]) (fun _ => false) (fun _ => 0)
      ⟨TGState.preparingToGenerate, "", 0, []⟩ ["az"]
      (by decide) rfl).1 (fun _ => rfl)).2.1
  · have h := (C2_interruption_polling.2 (some ["z"]) (fun k => decide (k = 0))
      (fun _ => 0) ⟨TGState.preparingToGenerate, "", 0, []⟩ ["a"]
      (by decide) rfl).2 0 rfl (fun j hj => absurd hj (by omega)) (by decide)
    rcases h.2 with hl | hr
    · exact hl.2.2.2
    · exact absurd hr.1 (by decide)

end MiniSearch
